import Mathlib

/-!
Verification development for the excavator control server
(`ExcavatorAPI` + `ExcavatorMotionPlatformIntegration`).

Shallow embedding conventions:
* Python floats are modelled as real numbers (`ℝ`); the PWM pulse pipeline
  (`PCA9685_controller.py`) uses transcendental operations (`sin`, `**`), so
  its embedding lives over `ℝ` and is noncomputable.
* Byte-level code (the UDP framing and CRC in `udp_socket.py`) is modelled
  over `ℕ` / `ℤ` and is fully executable.
* Python `int(x)` truncates toward zero; it is modelled by `pyInt`.
* Mutable objects become explicit state records; each method becomes a
  function from state (plus arguments) to state (plus emitted effects).
-/

namespace PWM

/-- Python `int(x)` applied to a float: truncation toward zero. -/
noncomputable def pyInt (x : ℝ) : ℤ := if 0 ≤ x then ⌊x⌋ else -⌊-x⌋

/-- `PWMConstants.DUTY_CYCLE_MAX` -/
noncomputable def DUTY_CYCLE_MAX : ℝ := 65535

/-- `self._pwm_period_us = 1e6 / float(self.pca.frequency)` with the default
50 Hz frequency (`PWM_FREQUENCY_DEFAULT`). -/
noncomputable def pwmPeriodUs : ℝ := 1000000 / 50

/-- `PWMConstants.SAFE_STATE_THRESHOLD` -/
noncomputable def SAFE_STATE_THRESHOLD : ℝ := 1 / 4

/-- `ChannelConfig` dataclass (`PCA9685_controller.py`).  `center` is stored
already resolved: `__post_init__` replaces a missing `center` by the midpoint
`pulse_min + (pulse_max - pulse_min) / 2` (see `defaultCenter`). -/
structure ChannelConfig where
  output_channel : ℕ
  pulse_min : ℝ
  pulse_max : ℝ
  direction : ℤ
  center : ℝ
  deadzone : ℝ
  affects_pump : Bool
  toggleable : Bool
  deadband_us_pos : ℝ
  deadband_us_neg : ℝ
  dither_enable : Bool
  dither_amp_us : ℝ
  dither_hz : ℝ
  ramp_enable : Bool
  ramp_limit : ℝ
  gamma : ℝ

/-- Default `center` computed by `ChannelConfig.__post_init__` when the YAML
config leaves it unset. -/
noncomputable def defaultCenter (pulse_min pulse_max : ℝ) : ℝ :=
  pulse_min + (pulse_max - pulse_min) / 2

/-- `self.deadzone_threshold = self.deadzone / 100.0` (`__post_init__`). -/
noncomputable def deadzoneThreshold (cfg : ChannelConfig) : ℝ := cfg.deadzone / 100

/-- `PumpConfig` dataclass. -/
structure PumpConfig where
  output_channel : ℕ
  pulse_min : ℝ
  pulse_max : ℝ
  idle : ℝ
  multiplier : ℝ

/-- The checks of `PWMController.validate_config` for one channel (the
cross-channel uniqueness of `output_channel` is stated separately where
needed). -/
def ValidChannelConfig (cfg : ChannelConfig) : Prop :=
  (cfg.direction = -1 ∨ cfg.direction = 1) ∧
  cfg.output_channel < 16 ∧
  0 ≤ cfg.pulse_min ∧ cfg.pulse_min ≤ 4095 ∧
  0 ≤ cfg.pulse_max ∧ cfg.pulse_max ≤ 4095 ∧
  cfg.pulse_min < cfg.pulse_max ∧
  cfg.pulse_min ≤ cfg.center ∧ cfg.center ≤ cfg.pulse_max ∧
  0 ≤ cfg.deadband_us_pos ∧ cfg.deadband_us_pos ≤ (cfg.pulse_max - cfg.pulse_min) * (1/2) ∧
  0 ≤ cfg.deadband_us_neg ∧ cfg.deadband_us_neg ≤ (cfg.pulse_max - cfg.pulse_min) * (1/2) ∧
  0 ≤ cfg.dither_amp_us ∧ cfg.dither_amp_us ≤ (cfg.pulse_max - cfg.pulse_min) * (1/4) ∧
  0 < cfg.dither_hz ∧ cfg.dither_hz ≤ 200 ∧
  (cfg.ramp_enable = true → 0 < cfg.ramp_limit) ∧
  0 < cfg.gamma ∧ cfg.gamma ≤ 5 ∧
  0 ≤ cfg.deadzone ∧ cfg.deadzone ≤ 100

/-- `PWMController._apply_gamma`:
`if gamma == 1.0 or value == 0.0: return value` else
`sign * (abs(value) ** gamma)` with `sign = 1.0 if value >= 0 else -1.0`.
`**` on floats is modelled by `Real.rpow`. -/
noncomputable def applyGamma (value gamma : ℝ) : ℝ :=
  if gamma = 1 ∨ value = 0 then value
  else (if 0 ≤ value then (1 : ℝ) else -1) * |value| ^ gamma

/-- `PWMController._compute_base_pulse`. -/
noncomputable def computeBasePulse (cfg : ChannelConfig) (value : ℝ) : ℝ :=
  let s := value * (cfg.direction : ℝ)
  if s = 0 then cfg.center
  else if 0 < s then
    let base := cfg.center + cfg.deadband_us_pos
    let working_range := cfg.pulse_max - base
    base + |value| * working_range
  else
    let base := cfg.center - cfg.deadband_us_neg
    let working_range := base - cfg.pulse_min
    base - |value| * working_range

/-- `PWMController._apply_dither`.  The source writes the phase as
`2.0 * 3.141592653589793 * config.dither_hz * now + config.output_channel * 1.0471975512`,
i.e. `2·π·f·now + channel·(π/3)` with `π` and `π/3` spelled as decimal
literals; the model uses the exact constants. -/
noncomputable def applyDither (cfg : ChannelConfig) (pulse value now : ℝ) : ℝ :=
  if cfg.dither_enable = true ∧ deadzoneThreshold cfg ≤ |value| then
    let phase := 2 * Real.pi * cfg.dither_hz * now + (cfg.output_channel : ℝ) * (Real.pi / 3)
    pulse + cfg.dither_amp_us * Real.sin phase
  else pulse

/-- Per-controller ramp state: `self._channel_ramp_state`
(`output_channel ↦ (last_pulse, last_time)`) plus `self._last_ramp_dt`. -/
structure RampState where
  channels : List (ℕ × (ℝ × ℝ))
  lastDt : ℝ

/-- Store an entry in the `output_channel ↦ (pulse, time)` association list
(`self._channel_ramp_state[config.output_channel] = ...`). -/
def rampSet (c : ℕ) (v : ℝ × ℝ) : List (ℕ × (ℝ × ℝ)) → List (ℕ × (ℝ × ℝ))
  | [] => [(c, v)]
  | (c', v') :: rest => if c' = c then (c, v) :: rest else (c', v') :: rampSet c v rest

/-- `PWMController._apply_ramp`.  Returns the (possibly slew-limited) pulse
together with the updated ramp state.  The lazy re-initialisation branch for
a missing `_channel_ramp_state` container is not modelled: the state record
always exists here (it is created by `reset` / `_init_ramp_state`). -/
noncomputable def applyRamp (cfg : ChannelConfig) (targetPulse now : ℝ)
    (st : RampState) : ℝ × RampState :=
  match st.channels.lookup cfg.output_channel with
  | none =>
      (targetPulse, { st with channels := rampSet cfg.output_channel (targetPulse, now) st.channels })
  | some (lastPulse, lastTime) =>
      if cfg.ramp_enable = false ∨ cfg.ramp_limit ≤ 0 then
        (targetPulse, { st with channels := rampSet cfg.output_channel (targetPulse, now) st.channels })
      else
        let dtRaw := max 0 (now - lastTime)
        let dt := if 0 < st.lastDt then min dtRaw (st.lastDt * 2) else dtRaw
        if dt ≤ 0 then
          (lastPulse, { st with channels := rampSet cfg.output_channel (lastPulse, now) st.channels })
        else
          let allowedStep := cfg.ramp_limit * dt
          let delta := targetPulse - lastPulse
          let newPulse :=
            if |delta| ≤ allowedStep then targetPulse
            else lastPulse + allowedStep * (if 0 < delta then 1 else -1)
          (newPulse,
            { channels := rampSet cfg.output_channel (newPulse, now) st.channels
              lastDt := if 0 < dtRaw then dtRaw else st.lastDt })

/-- `PWMController._pulse_from_value`: deadzone, gamma, base pulse, optional
ramp, dither, final clamp to `[pulse_min, pulse_max]`. -/
noncomputable def pulseFromValue (cfg : ChannelConfig) (value now : ℝ)
    (applyRampFlag : Bool) (st : RampState) : ℝ × RampState :=
  let value := if |value| < deadzoneThreshold cfg then 0 else value
  let value := applyGamma value cfg.gamma
  let basePulse := computeBasePulse cfg value
  let prog := if applyRampFlag then applyRamp cfg basePulse now st else (basePulse, st)
  let pulse := applyDither cfg prog.1 value now
  (max cfg.pulse_min (min cfg.pulse_max pulse), prog.2)

/-- `PWMController.compute_pulse` (the pure preview helper): clamp the value
to `[-1, 1]` and run `_pulse_from_value` without ramp. -/
noncomputable def computePulse (cfgs : List (String × ChannelConfig))
    (name : String) (value now : ℝ) : Option ℝ :=
  match cfgs.lookup name with
  | none => none
  | some cfg => some (pulseFromValue cfg (max (-1) (min 1 value)) now false ⟨[], 0⟩).1

/-- `int((pulse / self._pwm_period_us) * PWMConstants.DUTY_CYCLE_MAX)`
(`_update_channels`, `_update_pump`, `reset`). -/
noncomputable def dutyOf (pulse : ℝ) : ℤ := pyInt (pulse / pwmPeriodUs * DUTY_CYCLE_MAX)

end PWM

namespace PWM

/-- A duty-cycle write to a PCA9685 output
(`self.pca.channels[ch].duty_cycle = duty`). -/
structure Write where
  channel : ℕ
  pulse : ℝ
  duty : ℤ

/-- A command value as received by `update_named`: either a number (anything
`float(...)` accepts) or a value on which `float(...)` raises. -/
inductive CmdVal where
  | num (x : ℝ)
  | nonNumeric

/-- Python exceptions that escape the modelled code.  `update_named`'s two
`except` branches interpolate the local variable `value` into a log message;
when `value` is unbound at that point the f-string raises
`UnboundLocalError`, a subclass of `NameError`. -/
inductive PyErr where
  | nameError
  deriving DecidableEq

/-- The state of a `PWMController` instance (the attributes used by
`update_named` / `reset` / `_monitor_loop`), plus `outputs`: the duty cycle
last written to each PCA9685 register, standing in for the peripheral. -/
structure Controller where
  channelConfigs : List (String × ChannelConfig)
  pumpConfig : Option PumpConfig
  pumpVariable : Bool
  toggleChannels : Bool
  pumpEnabled : Bool
  manualPumpLoad : ℝ
  pumpVariableSum : ℝ
  pumpOverrideThrottle : Option ℝ
  inputRateThreshold : ℝ
  skipRateChecking : Bool
  isSafeState : Bool
  inputCount : ℕ
  inputCounter : ℕ
  lastInputTime : ℝ
  values : ℕ → ℝ
  ramp : RampState
  defaultUnsetToZero : Bool
  outputs : ℕ → ℤ

/-- The per-command loop of `update_named`.  `valueVar` models the Python
local variable `value`, which is function-scoped: it is unbound (`none`)
until the first `value = float(val)` succeeds.  When `float(val)` raises,
the `except` branch logs `f"Config {name} value: {value} is invalid"`:
if `value` is still unbound this raises `NameError`, otherwise the stale
previous value is logged and the loop continues. -/
noncomputable def processCommands (cfgs : List (String × ChannelConfig))
    (values : ℕ → ℝ) (valueVar : Option ℝ) :
    List (String × CmdVal) → Except PyErr (ℕ → ℝ)
  | [] => pure values
  | (name, v) :: rest =>
    match cfgs.lookup name with
    | none => processCommands cfgs values valueVar rest
    | some cfg =>
      match v with
      | .nonNumeric =>
        match valueVar with
        | none => throw .nameError
        | some _ => processCommands cfgs values valueVar rest
      | .num x =>
        let value := max (-1) (min 1 x)
        let value := if |value| < deadzoneThreshold cfg then 0 else value
        processCommands cfgs (Function.update values cfg.output_channel value) (some value) rest

/-- One iteration of the `_update_channels` loop body. -/
noncomputable def updateChannelStep (now : ℝ) (acc : Controller × List Write)
    (nc : String × ChannelConfig) : Controller × List Write :=
  let cfg := nc.2
  if acc.1.toggleChannels = false ∧ cfg.toggleable = true then acc
  else
    let pr := pulseFromValue cfg (acc.1.values cfg.output_channel) now true acc.1.ramp
    let duty := dutyOf pr.1
    ({ acc.1 with
        ramp := pr.2
        outputs := Function.update acc.1.outputs cfg.output_channel duty },
      acc.2 ++ [⟨cfg.output_channel, pr.1, duty⟩])

/-- `PWMController._update_channels`: recompute and push the duty cycle of
every (non-skipped) channel.  The source reads `time.time()` once per
iteration; the model passes a single instant `now` for the whole sweep. -/
noncomputable def updateChannels (ctl : Controller) (now : ℝ) : Controller × List Write :=
  ctl.channelConfigs.foldl (updateChannelStep now) (ctl, [])

/-- `PWMController._update_pump`. -/
noncomputable def updatePump (ctl : Controller) : Controller × List Write :=
  match ctl.pumpConfig with
  | none => (ctl, [])
  | some pc =>
    let throttle :=
      match ctl.pumpOverrideThrottle with
      | some t => t
      | none =>
        if ctl.pumpEnabled = false then (-1 : ℝ)
        else
          (if ctl.pumpVariable = true then
              pc.idle + pc.multiplier * ctl.pumpVariableSum / 10
            else pc.idle + pc.multiplier / 10) + ctl.manualPumpLoad
    let throttle := max (-1) (min 1 throttle)
    let pulse := pc.pulse_min + (pc.pulse_max - pc.pulse_min) * ((throttle + 1) / 2)
    let duty := dutyOf pulse
    ({ ctl with outputs := Function.update ctl.outputs pc.output_channel duty },
      [⟨pc.output_channel, pulse, duty⟩])

/-- `PWMController._init_ramp_state`: every configured channel starts at
`(center, now)` and `_last_ramp_dt` restarts at `0`. -/
noncomputable def initRampState (cfgs : List (String × ChannelConfig)) (now : ℝ) : RampState :=
  ⟨cfgs.foldl (fun l nc => rampSet nc.2.output_channel (nc.2.center, now) l) [], 0⟩

/-- `PWMController.reset`: write every channel's `center` duty, re-initialise
the ramp state, optionally write the pump's `pulse_min` duty, and clear
`is_safe_state` / `input_count` / the pump override. -/
noncomputable def reset (ctl : Controller) (resetPump : Bool) (now : ℝ) :
    Controller × List Write :=
  let chanWrites := ctl.channelConfigs.map
    (fun nc => Write.mk nc.2.output_channel nc.2.center (dutyOf nc.2.center))
  let outputs1 := chanWrites.foldl (fun o w => Function.update o w.channel w.duty) ctl.outputs
  let pumpWrites :=
    if resetPump = true then
      match ctl.pumpConfig with
      | some pc => [Write.mk pc.output_channel pc.pulse_min (dutyOf pc.pulse_min)]
      | none => []
    else []
  let outputs2 := pumpWrites.foldl (fun o w => Function.update o w.channel w.duty) outputs1
  ({ ctl with
      outputs := outputs2
      ramp := initRampState ctl.channelConfigs now
      isSafeState := false
      inputCount := 0
      pumpOverrideThrottle := none },
    chanWrites ++ pumpWrites)

/-- The tail of `PWMController.update_named` after the pump-override
branch: zero the unset channels, run the per-command loop, recompute
`pump_variable_sum`, then `_update_channels` / `_update_pump`, and clear a
one-shot pump override. -/
noncomputable def updateNamedRest (ctl : Controller) (commands : List (String × CmdVal))
    (unsetToZero : Option Bool) (oneShotPumpOverride : Bool) (now : ℝ) :
    Except PyErr (Controller × List Write) :=
  let doZero := unsetToZero.getD ctl.defaultUnsetToZero
  let values0 :=
    if doZero = true then
      ctl.channelConfigs.foldl (fun vs nc => Function.update vs nc.2.output_channel 0) ctl.values
    else ctl.values
  let ctl1 := { ctl with values := values0, pumpVariableSum := 0 }
  (processCommands ctl1.channelConfigs ctl1.values none commands).bind fun values1 =>
    let ctl2 := { ctl1 with values := values1 }
    let sum := ctl2.channelConfigs.foldl
      (fun s nc => if nc.2.affects_pump = true then s + |values1 nc.2.output_channel| else s) 0
    let ctl3 := { ctl2 with pumpVariableSum := sum }
    let uc := updateChannels ctl3 now
    let up := updatePump uc.1
    let fin :=
      if oneShotPumpOverride = true then { up.1 with pumpOverrideThrottle := none } else up.1
    pure (fin, uc.2 ++ up.2)

/-- `PWMController.update_named`.  Returns the updated controller and the
duty-cycle writes pushed to the peripheral, or the Python exception that
escaped.  In the `'pump'` branch the `except` handler logs
`f"Received invalid pump value {value}"`, and the local `value` is *never*
bound before that point, so a non-numeric pump command always raises
`NameError`. -/
noncomputable def updateNamed (ctl : Controller) (commands : List (String × CmdVal))
    (unsetToZero : Option Bool) (oneShotPumpOverride : Bool) (now : ℝ) :
    Except PyErr (Controller × List Write) :=
  if ctl.skipRateChecking = false ∧ ctl.isSafeState = false then pure (ctl, [])
  else
    let pumpStep : Except PyErr Controller :=
      match commands.lookup "pump", ctl.pumpConfig with
      | some (.num x), some _ =>
          pure { ctl with pumpOverrideThrottle := some (max (-1) (min 1 x)) }
      | some .nonNumeric, some _ => throw .nameError
      | _, _ => pure ctl
    pumpStep.bind fun c => updateNamedRest c commands unsetToZero oneShotPumpOverride now

/-- One observable iteration of `PWMController._monitor_loop`'s rate check:
either `input_event.wait(1/input_rate_threshold)` timed out, or an input
event (set by `update_named`) was observed at time `now`.  The watchdog
heartbeat-queue bookkeeping of the same loop involves a separate OS process
and is not modelled. -/
inductive MonitorEvent where
  | timeout (now : ℝ)
  | inputEv (now : ℝ)

/-- The rate-monitoring branch of `_monitor_loop`. -/
noncomputable def monitorStep (ctl : Controller) (ev : MonitorEvent) : Controller × List Write :=
  match ev with
  | .timeout now =>
    if ctl.isSafeState = true then
      let r := reset ctl false now
      ({ r.1 with isSafeState := false, inputCount := 0 }, r.2)
    else (ctl, [])
  | .inputEv now =>
    let timeDiff := now - ctl.lastInputTime
    let ctl := { ctl with lastInputTime := now }
    if 0 < timeDiff then
      let currentRate := 1 / timeDiff
      if ctl.inputRateThreshold ≤ currentRate then
        let requiredCount := pyInt (ctl.inputRateThreshold * SAFE_STATE_THRESHOLD)
        let newCount : ℕ := ctl.inputCount + 1
        if requiredCount ≤ (newCount : ℤ) then
          ({ ctl with
              isSafeState := true
              inputCount := 0
              inputCounter := ctl.inputCounter + 1 }, [])
        else
          ({ ctl with inputCount := newCount, inputCounter := ctl.inputCounter + 1 }, [])
      else
        ({ ctl with inputCount := 0, inputCounter := ctl.inputCounter + 1 }, [])
    else (ctl, [])

end PWM

namespace UDP

/-- `UDPSocket.crc16 = crcmod.mkCrcFun(0x11021, initCrc=0xFFFF)`.
crcmod's `mkCrcFun` defaults to `rev=True`, i.e. the bit-reflected
implementation: per input byte the CRC register is XORed with the byte and
then shifted right eight times, XORing in the reversed polynomial
`0x8408` (= `0x1021` bit-reversed) whenever the ejected bit is 1.
`crcStep` is one such shift. -/
def crcStep (s : ℕ) : ℕ := if s % 2 = 1 then (s / 2) ^^^ 0x8408 else s / 2

/-- Process one input byte: XOR it into the register, then 8 shift steps. -/
def crcByte (s b : ℕ) : ℕ := crcStep^[8] (s ^^^ b)

/-- The CRC of a byte string, starting from `initCrc = 0xFFFF`. -/
def crc16 (data : List ℕ) : ℕ := data.foldl crcByte 0xFFFF

/-- The integer element types of `send_types`
(`'b','B','h','H','i','I','q','Q'`).  The two floating-point types
`'f'`/`'d'` are IEEE-754 formats and are not modelled. -/
inductive ElementType where
  | b | B | h | H | i | I | q | Q
  deriving DecidableEq

/-- `struct.calcsize` of one element. -/
def elemSize : ElementType → ℕ
  | .b | .B => 1
  | .h | .H => 2
  | .i | .I => 4
  | .q | .Q => 8

def elemSigned : ElementType → Bool
  | .b => true | .h => true | .i => true | .q => true
  | .B => false | .H => false | .I => false | .Q => false

/-- The values `struct.pack` accepts for an element type without raising. -/
def inRangeE (t : ElementType) (v : ℤ) : Prop :=
  if elemSigned t = true then
    -(2 ^ (8 * elemSize t - 1)) ≤ v ∧ v < 2 ^ (8 * elemSize t - 1)
  else 0 ≤ v ∧ v < 2 ^ (8 * elemSize t)

instance (t : ElementType) (v : ℤ) : Decidable (inRangeE t v) := by
  rw [inRangeE]
  split_ifs <;> exact inferInstance

/-- Little-endian byte decomposition (`k` bytes). -/
def toBytesLE : ℕ → ℕ → List ℕ
  | 0, _ => []
  | k + 1, n => n % 256 :: toBytesLE k (n / 256)

/-- Little-endian byte recomposition. -/
def fromBytesLE : List ℕ → ℕ
  | [] => 0
  | b :: rest => b + 256 * fromBytesLE rest

/-- `struct.pack` of a single value, little-endian, two's complement for
the signed element types. -/
def packElem (t : ElementType) (v : ℤ) : List ℕ :=
  toBytesLE (elemSize t) (v % 2 ^ (8 * elemSize t)).toNat

/-- `struct.unpack` of a single value. -/
def unpackElem (t : ElementType) (bytes : List ℕ) : ℤ :=
  let m := fromBytesLE bytes
  if elemSigned t = true ∧ 2 ^ (8 * elemSize t - 1) ≤ m then
    (m : ℤ) - 2 ^ (8 * elemSize t)
  else (m : ℤ)

/-- `struct.pack(f'<{n}{t}', *values)` (the payload of `send`). -/
def packValues (t : ElementType) (values : List ℤ) : List ℕ :=
  (values.map (packElem t)).flatten

/-- `struct.unpack(self.recv_format, values_data)`: split the payload into
`n` elements of `elemSize t` bytes; `none` models a `struct.error`. -/
def unpackValues (t : ElementType) : ℕ → List ℕ → Option (List ℤ)
  | 0, bytes => if bytes = [] then some [] else none
  | n + 1, bytes =>
    if bytes.length < elemSize t then none
    else
      match unpackValues t n (bytes.drop (elemSize t)) with
      | none => none
      | some vs => some (unpackElem t (bytes.take (elemSize t)) :: vs)

/-- `struct.pack("<H", checksum)`. -/
def encodeU16LE (n : ℕ) : List ℕ := [n % 256, n / 256 % 256]

/-- `UDPSocket.send`: pack the values with the local element type and append
the CRC-16 of the payload as two little-endian bytes
(`data = data_wo_crc + struct.pack("<H", UDPSocket.crc16(data_wo_crc))`). -/
def sendFrame (t : ElementType) (values : List ℤ) : List ℕ :=
  packValues t values ++ encodeU16LE (crc16 (packValues t values))

/-- The state of a `UDPSocket` receiver (the attributes used by
`_receive_loop` and `get_latest`; time is rational seconds). -/
structure SockState where
  receive_type : ElementType
  num_inputs : ℕ
  max_age_seconds : ℚ
  running : Bool
  latest_data : Option (List ℤ)
  latest_timestamp : ℚ
  packets_received : ℕ
  packets_expired : ℕ
  packets_corrupted : ℕ
  packets_shape_invalid : ℕ
  last_packet_time : ℚ
  deriving DecidableEq

/-- `expected_size = struct.calcsize(self.receive_type)*self.num_inputs + 2`. -/
def expectedSize (st : SockState) : ℕ := elemSize st.receive_type * st.num_inputs + 2

/-- Outcome of one `_receive_loop` iteration on a received datagram:
the loop either breaks on the zero-byte hangup datagram, continues with an
updated state, or (on a `struct.unpack` error) closes the connection and
breaks. -/
inductive RecvStep where
  | closed
  | next (st : SockState)
  | fatal (st : SockState)
  deriving DecidableEq

/-- The body of `UDPSocket._receive_loop` for one received datagram `data`
arriving at time `now`: hangup check, size check (`packets_shape_invalid`),
CRC check (`packets_corrupted`, silent drop), unpack, then overwrite the
single-slot `latest_data` under the lock.  The delay-tracking statistics
block is statistics-only and is not modelled. -/
def processDatagram (st : SockState) (data : List ℕ) (now : ℚ) : RecvStep :=
  if data = [] then .closed
  else if data.length = expectedSize st then
    let values_data := data.take (data.length - 2)
    let received_crc := fromBytesLE (data.drop (data.length - 2))
    if crc16 values_data ≠ received_crc then
      .next { st with packets_corrupted := st.packets_corrupted + 1 }
    else
      match unpackValues st.receive_type st.num_inputs values_data with
      | none => .fatal { st with running := false }
      | some values =>
        .next { st with
          latest_data := some values
          latest_timestamp := now
          packets_received := st.packets_received + 1
          last_packet_time := now }
  else .next { st with packets_shape_invalid := st.packets_shape_invalid + 1 }

/-- Result of `UDPSocket.get_latest`: the Python code returns `False` when
the socket is not running, `None` when there is no (fresh) data, and the
stored list otherwise. -/
inductive GetLatestResult where
  | notRunning
  | noValue
  | value (v : List ℤ)
  deriving DecidableEq

/-- `UDPSocket.get_latest` at time `now`: freshness-gated single read that
clears the slot on success and counts expired reads. -/
def get_latest (st : SockState) (now : ℚ) : SockState × GetLatestResult :=
  if st.running = false then (st, .notRunning)
  else
    match st.latest_data with
    | none => (st, .noValue)
    | some d =>
      let age := now - st.latest_timestamp
      if st.max_age_seconds < age then
        ({ st with packets_expired := st.packets_expired + 1 }, .noValue)
      else
        ({ st with latest_data := none }, .value d)

end UDP

namespace Coord

/-- The operation-relevant fields of `ExcavatorAPI`:
`current_operation` (0 = none, 1 = mirroring, 2 = driving,
3 = driving_and_mirroring, per `ExcavatorAPIProperties.OPERATIONS`) and the
per-operation `{_, _starting, _stopping}` flags (`dm` abbreviates
`driving_and_mirroring`). -/
structure CoordState where
  current_operation : ℕ
  driving : Bool
  driving_starting : Bool
  driving_stopping : Bool
  mirroring : Bool
  mirroring_starting : Bool
  mirroring_stopping : Bool
  dm : Bool
  dm_starting : Bool
  dm_stopping : Bool
  deriving DecidableEq

/-- The `ExcavatorAPI.__init__` values of these fields. -/
def initState : CoordState :=
  ⟨0, false, false, false, false, false, false, false, false, false⟩

/-- What a lock-held section sends on the control channel: nothing, an
`error` event with a `context`, or a named response event. -/
inductive Event where
  | none_
  | errorEv (context : String)
  | response (event : String)
  deriving DecidableEq

/-- The atomic sections of the public start/stop transitions of
`ExcavatorAPI`, at the granularity of the source's `data_lock` regions.
`FinishOk` is the lock-held tail of a successful start (clear `_starting`,
send the response); `FinishFail` is the failure path of the `finally` block
(clear `_starting`, clear the operation flag, then call `stop_X`, which
returns immediately because the flag is already cleared).
`_reset_operation_values`, called from the `finally` of `stop_X`, is NOT
one lock-held section in the source: its `with self.data_lock:` block only
reads `current_operation` into a local and zeroes the field, and the
operation-flag clears that follow run AFTER the lock is released.  It is
therefore modelled as two actions: `resetLocked` (the lock-held half) and
`resetFlags op` (the out-of-lock tail, parametrised by the operation code
the thread captured inside the lock). -/
inductive Action where
  | startDrivingEntry | startDrivingFinishOk | startDrivingFinishFail
  | stopDrivingEntry
  | startMirroringEntry | startMirroringFinishOk | startMirroringFinishFail
  | stopMirroringEntry
  | startDMEntry | startDMFinishOk | startDMFinishFail
  | stopDMEntry
  | resetLocked | resetFlags (op : ℕ)
  deriving DecidableEq

/-- `ExcavatorAPI._check_operation` composed with the guarded head of
`start_driving` (all under `self.data_lock`): reject with a contextual
error when an operation is already underway, report success if already
driving, reject while transitioning, otherwise claim the flags. -/
def startDrivingEntry (s : CoordState) : CoordState × Event :=
  if s.current_operation ≠ 0 then (s, .errorEv "start_driving")
  else if s.driving = true then (s, .response "started_driving")
  else if s.driving_starting = true ∨ s.driving_stopping = true then
    (s, .errorEv "start_driving")
  else ({ s with driving_starting := true, current_operation := 2, driving := true }, .none_)

/-- Head of `stop_driving` under the lock. -/
def stopDrivingEntry (s : CoordState) : CoordState × Event :=
  if s.driving = false then (s, .response "stopped_driving")
  else if s.driving_starting = true ∨ s.driving_stopping = true then
    (s, .errorEv "stop_driving")
  else ({ s with driving_stopping := true }, .none_)

/-- The `with self.data_lock:` half of `ExcavatorAPI._reset_operation_values`:
read `current_operation` into the thread-local `current_operation` variable
(returned here as the second component) and zero the field.  The operation
flags are untouched in this half. -/
def resetLocked (s : CoordState) : CoordState × ℕ :=
  ({ s with current_operation := 0 }, s.current_operation)

/-- The tail of `ExcavatorAPI._reset_operation_values`, which runs AFTER
`data_lock` has been released: dispatch on the operation code captured
inside the lock and clear that operation's flag and `_stopping` flag; an
unrecognised code only logs an error. -/
def resetFlags (op : ℕ) (s : CoordState) : CoordState :=
  if op = 1 then { s with mirroring := false, mirroring_stopping := false }
  else if op = 2 then { s with driving := false, driving_stopping := false }
  else if op = 3 then { s with dm := false, dm_stopping := false }
  else s

/-- Head of `start_mirroring` under the lock. -/
def startMirroringEntry (s : CoordState) : CoordState × Event :=
  if s.current_operation ≠ 0 then (s, .errorEv "start_mirroring")
  else if s.mirroring = true then (s, .response "started_mirroring")
  else if s.mirroring_starting = true ∨ s.mirroring_stopping = true then
    (s, .errorEv "start_mirroring")
  else ({ s with mirroring_starting := true, mirroring := true, current_operation := 1 }, .none_)

/-- Head of `stop_mirroring` under the lock. -/
def stopMirroringEntry (s : CoordState) : CoordState × Event :=
  if s.mirroring = false then (s, .response "stopped_mirroring")
  else if s.mirroring_starting = true ∨ s.mirroring_stopping = true then
    (s, .errorEv "stop_mirroring")
  else ({ s with mirroring_stopping := true }, .none_)

/-- Head of `start_driving_and_mirroring` under the lock. -/
def startDMEntry (s : CoordState) : CoordState × Event :=
  if s.current_operation ≠ 0 then (s, .errorEv "start_driving_and_mirroring")
  else if s.dm = true then (s, .response "started_driving_and_mirroring")
  else if s.dm_stopping = true ∨ s.dm_starting = true then
    (s, .errorEv "start_driving_and_mirroring")
  else ({ s with dm_starting := true, dm := true, current_operation := 3 }, .none_)

/-- Head of `stop_driving_and_mirroring` under the lock. -/
def stopDMEntry (s : CoordState) : CoordState × Event :=
  if s.dm = false then (s, .response "stopped_driving_and_mirroring")
  else if s.dm_stopping = true ∨ s.dm_starting = true then
    (s, .errorEv "stop_driving_and_mirroring")
  else ({ s with dm_stopping := true }, .none_)

/-- Interpretation of each atomic section. -/
def applyAction : Action → CoordState → CoordState × Event
  | .startDrivingEntry, s => startDrivingEntry s
  | .startDrivingFinishOk, s =>
      ({ s with driving_starting := false }, .response "started_driving")
  | .startDrivingFinishFail, s =>
      ({ s with driving_starting := false, driving := false }, .none_)
  | .stopDrivingEntry, s => stopDrivingEntry s
  | .startMirroringEntry, s => startMirroringEntry s
  | .startMirroringFinishOk, s =>
      ({ s with mirroring_starting := false }, .response "started_mirroring")
  | .startMirroringFinishFail, s =>
      ({ s with mirroring_starting := false, mirroring := false }, .none_)
  | .stopMirroringEntry, s => stopMirroringEntry s
  | .startDMEntry, s => startDMEntry s
  | .startDMFinishOk, s =>
      ({ s with dm_starting := false }, .response "started_driving_and_mirroring")
  | .startDMFinishFail, s =>
      ({ s with dm_starting := false, dm := false }, .none_)
  | .stopDMEntry, s => stopDMEntry s
  | .resetLocked, s => ((resetLocked s).1, .none_)
  | .resetFlags op, s => (resetFlags op s, .none_)

/-- Run a sequence of atomic sections (one possible interleaving of the
threads' lock-held and out-of-lock steps). -/
def runActions (as : List Action) (s : CoordState) : CoordState :=
  as.foldl (fun s a => (applyAction a s).1) s

/-- Number of operations whose flag is set. -/
def activeCount (s : CoordState) : ℕ :=
  (if s.driving = true then 1 else 0) + (if s.mirroring = true then 1 else 0) +
    (if s.dm = true then 1 else 0)

/-- The mutual-exclusion invariant: each set operation flag pins
`current_operation` to that operation's code (so at most one flag can be
set — see `Coord.inv_at_most_one`). -/
def Inv (s : CoordState) : Prop :=
  (s.driving = true → s.current_operation = 2) ∧
  (s.mirroring = true → s.current_operation = 1) ∧
  (s.dm = true → s.current_operation = 3)

end Coord

namespace TCP

/-- `ExcavatorAPIProperties.MIN_RATE` (0.1 Hz). -/
def MIN_RATE : ℚ := 1 / 10

/-- `ExcavatorAPIProperties.MAX_RATE`. -/
def MAX_RATE : ℚ := 300

/-- `ExcavatorAPIProperties.ORIENTATION_SEND_MAX_RATE`. -/
def ORIENTATION_SEND_MAX_RATE : ℚ := 150

/-- `ExcavatorAPIProperties.COMMAND_RECEIVE_MAX_RATE`. -/
def COMMAND_RECEIVE_MAX_RATE : ℚ := 25

/-- `TCPServer.__validate_rate`: `True` for success, `False` for the
`_format_error_response` path.  The check is
`if not (MIN_RATE < rate < max_rate)` with `max_rate` defaulting to
`MAX_RATE` and overridden by the per-use-site cap. -/
def validateRate (rate : ℚ) (maxQ : Option ℚ) : Bool :=
  let max_rate := match maxQ with | some m => m | none => MAX_RATE
  decide (MIN_RATE < rate ∧ rate < max_rate)

/-- The rate check of `_parse_start_mirroring_params`
(`max=ORIENTATION_SEND_MAX_RATE`). -/
def validateMirroringSendRate (r : ℚ) : Bool :=
  validateRate r (some ORIENTATION_SEND_MAX_RATE)

/-- The rate check of `_parse_start_driving_params`
(`max=COMMAND_RECEIVE_MAX_RATE`). -/
def validateDrivingCommandRate (r : ℚ) : Bool :=
  validateRate r (some COMMAND_RECEIVE_MAX_RATE)

end TCP

namespace PWM

/-- The channel of spec scenario 1 ("Deadband + gamma, positive"):
`{pulse_min=1000, center=1500, pulse_max=2000, deadband_pos=40,
deadband_neg=40, direction=+1, gamma=1.0, deadzone=0, ramp=off,
dither=off}`, driven on output 0. -/
noncomputable def cfgDeadband : ChannelConfig :=
  { output_channel := 0, pulse_min := 1000, pulse_max := 2000, direction := 1,
    center := 1500, deadzone := 0, affects_pump := false, toggleable := false,
    deadband_us_pos := 40, deadband_us_neg := 40, dither_enable := false,
    dither_amp_us := 8, dither_hz := 40, ramp_enable := false, ramp_limit := 0,
    gamma := 1 }

/-- Scenario 2: the same channel with `gamma = 2.0`. -/
noncomputable def cfgGamma2 : ChannelConfig := { cfgDeadband with gamma := 2 }

/-- The same channel with dither enabled (amplitude 8 µs, 40 Hz — the
dataclass defaults) and `deadzone = 0`. -/
noncomputable def cfgDitherZero : ChannelConfig := { cfgDeadband with dither_enable := true }

/-- The same channel with ramp (1 µs/s) and dither both enabled. -/
noncomputable def cfgRampDither : ChannelConfig :=
  { cfgDeadband with dither_enable := true, ramp_enable := true, ramp_limit := 1 }

/-- The same channel with ramp enabled at 100 µs/s and dither off. -/
noncomputable def cfgRampOnly : ChannelConfig :=
  { cfgDeadband with ramp_enable := true, ramp_limit := 100 }

/-- A second valve channel on output 2. -/
noncomputable def cfgArm : ChannelConfig := { cfgDeadband with output_channel := 2 }

/-- A pump on output 1 with `idle = 0`, `multiplier = 1`. -/
noncomputable def pumpExample : PumpConfig :=
  { output_channel := 1, pulse_min := 1000, pulse_max := 2000, idle := 0, multiplier := 1 }

/-- A controller with the single `cfgDeadband` channel, no pump, and rate
checking disabled (`input_rate_threshold=0`, so `skip_rate_checking` is
true), as after `reset` at time 0. -/
noncomputable def ctlStep : Controller :=
  { channelConfigs := [("boom", cfgDeadband)]
    pumpConfig := none
    pumpVariable := false
    toggleChannels := true
    pumpEnabled := true
    manualPumpLoad := 0
    pumpVariableSum := 0
    pumpOverrideThrottle := none
    inputRateThreshold := 0
    skipRateChecking := true
    isSafeState := false
    inputCount := 0
    inputCounter := 0
    lastInputTime := 0
    values := fun _ => 0
    ramp := ⟨[(0, (1500, 0))], 0⟩
    defaultUnsetToZero := true
    outputs := fun _ => 0 }

/-- A controller with one valve channel and a pump, rate monitoring on at
20 Hz, currently enabled (`is_safe_state = True`), whose pump output was
last driven to duty 9999. -/
noncomputable def ctlMonitor : Controller :=
  { ctlStep with
    pumpConfig := some pumpExample
    inputRateThreshold := 20
    skipRateChecking := false
    isSafeState := true
    outputs := fun c => if c = 1 then 9999 else 4915 }

/-- A controller with two valve channels and a pump, rate checking
disabled. -/
noncomputable def ctlPump : Controller :=
  { ctlStep with
    channelConfigs := [("boom", cfgDeadband), ("arm", cfgArm)]
    pumpConfig := some pumpExample
    ramp := ⟨[(0, (1500, 0)), (2, (1500, 0))], 0⟩ }

end PWM

namespace UDP

/-- A concrete receiver: element type `h` (`i16`), two inputs,
`max_age_seconds = 1`, running, holding the sample `[5]` that arrived at
t = 3 s. -/
def sockExample : SockState :=
  { receive_type := ElementType.h
    num_inputs := 2
    max_age_seconds := 1
    running := true
    latest_data := some [5]
    latest_timestamp := 3
    packets_received := 1
    packets_expired := 0
    packets_corrupted := 0
    packets_shape_invalid := 0
    last_packet_time := 3 }

end UDP

namespace PWM

/-- `int(x) = ⌊x⌋` for nonnegative arguments. -/
theorem pyInt_nonneg (x : ℝ) (h : 0 ≤ x) : pyInt x = ⌊x⌋ := if_pos h

theorem applyGamma_zero (g : ℝ) : applyGamma 0 g = 0 := by
  rw [applyGamma, if_pos (Or.inr rfl)]

theorem computeBasePulse_zero (cfg : ChannelConfig) : computeBasePulse cfg 0 = cfg.center := by
  rw [computeBasePulse]
  simp

theorem pulseFromValue_zero (cfg : ChannelConfig) (now : ℝ) (st : RampState)
    (hmin : cfg.pulse_min ≤ cfg.center) (hmax : cfg.center ≤ cfg.pulse_max)
    (hnd : cfg.dither_enable = false ∨ 0 < deadzoneThreshold cfg) :
    (pulseFromValue cfg 0 now false st).1 = cfg.center := by
  rw [pulseFromValue]
  simp only [abs_zero, ite_self, applyGamma_zero, computeBasePulse_zero, Bool.false_eq_true,
    if_false]
  have hd : applyDither cfg cfg.center 0 now = cfg.center := by
    rw [applyDither]
    rcases hnd with h | h
    · rw [if_neg]
      simp [h]
    · rw [if_neg]
      rintro ⟨-, hle⟩
      rw [abs_zero] at hle
      linarith
  rw [hd, min_eq_right hmax, max_eq_right hmin]

theorem rampSet_lookup (c : ℕ) (v : ℝ × ℝ) (l : List (ℕ × (ℝ × ℝ))) :
    (rampSet c v l).lookup c = some v := by
  induction l with
  | nil => simp [rampSet, List.lookup]
  | cons hd tl ih =>
    rw [rampSet]
    by_cases h : hd.1 = c
    · simp only [h, if_pos rfl]
      simp [List.lookup]
    · rw [if_neg h]
      have hne : (c == hd.1) = false := beq_false_of_ne (fun hc => h hc.symm)
      cases hd with
      | mk c1 v1 =>
        rw [List.lookup, hne]
        exact ih

/-- In every branch of `_apply_ramp`, the pulse stored in
`_channel_ramp_state` equals the returned pulse (with timestamp `now`). -/
theorem applyRamp_stores (cfg : ChannelConfig) (target now : ℝ) (st : RampState) :
    ((applyRamp cfg target now st).2).channels.lookup cfg.output_channel =
      some ((applyRamp cfg target now st).1, now) := by
  simp only [applyRamp]
  split
  · simp [rampSet_lookup]
  · split_ifs <;> simp [rampSet_lookup]

/-- The slew bound of `_apply_ramp`: the returned pulse moves away from the
stored `last_pulse` by at most `ramp_limit` times the (clamped) `dt`. -/
theorem applyRamp_bound (cfg : ChannelConfig) (target now lp lt : ℝ) (st : RampState)
    (hen : cfg.ramp_enable = true) (hlim : 0 < cfg.ramp_limit)
    (hlook : st.channels.lookup cfg.output_channel = some (lp, lt)) :
    |(applyRamp cfg target now st).1 - lp| ≤
      cfg.ramp_limit *
        (if 0 < st.lastDt then min (max 0 (now - lt)) (st.lastDt * 2) else max 0 (now - lt)) := by
  have hcond : ¬(cfg.ramp_enable = false ∨ cfg.ramp_limit ≤ 0) := by
    rintro (h | h)
    · rw [hen] at h; exact Bool.noConfusion h
    · linarith
  set dtRaw := max 0 (now - lt) with hdtRaw
  set dt := if 0 < st.lastDt then min dtRaw (st.lastDt * 2) else dtRaw with hdt
  have hdt0 : 0 ≤ dt := by
    rw [hdt]
    split_ifs with h
    · exact le_min (le_max_left _ _) (by positivity)
    · exact le_max_left _ _
  simp only [applyRamp, hlook, hcond, if_false, ← hdtRaw, ← hdt]
  by_cases hz : dt ≤ 0
  · rw [if_pos hz]
    have : dt = 0 := le_antisymm hz hdt0
    simp [this]
  · rw [if_neg hz]
    by_cases hstep : |target - lp| ≤ cfg.ramp_limit * dt
    · rw [if_pos hstep]
      exact hstep
    · rw [if_neg hstep]
      have h1 : |cfg.ramp_limit * dt| = cfg.ramp_limit * dt := by
        rw [abs_of_nonneg]
        positivity
      have harith : lp + cfg.ramp_limit * dt * (if 0 < target - lp then (1:ℝ) else -1) - lp =
          cfg.ramp_limit * dt * (if 0 < target - lp then (1:ℝ) else -1) := by ring
      rw [harith, abs_mul, h1]
      have h2 : |(if 0 < target - lp then (1:ℝ) else -1)| = 1 := by split_ifs <;> norm_num
      rw [h2, mul_one]

/-- Clamping to `[lo, hi]` is 1-Lipschitz. -/
theorem clamp_lipschitz (lo hi a b : ℝ) :
    |max lo (min hi a) - max lo (min hi b)| ≤ |a - b| := by
  have h1 : |max lo (min hi a) - max lo (min hi b)| ≤ |min hi a - min hi b| := by
    rw [max_comm lo, max_comm lo]
    exact abs_max_sub_max_le_abs _ _ _
  have h2 : |min hi a - min hi b| ≤ |a - b| := by
    rw [min_comm hi a, min_comm hi b]
    have h3 := abs_min_sub_min_le_max a hi b hi
    rw [sub_self, abs_zero, max_eq_left (abs_nonneg _)] at h3
    exact h3
  linarith

theorem pulseFromValue_dither_off (cfg : ChannelConfig) (value now : ℝ) (st : RampState)
    (hd : cfg.dither_enable = false) :
    pulseFromValue cfg value now true st =
      (max cfg.pulse_min (min cfg.pulse_max
        (applyRamp cfg
          (computeBasePulse cfg
            (applyGamma (if |value| < deadzoneThreshold cfg then 0 else value) cfg.gamma))
          now st).1),
       (applyRamp cfg
          (computeBasePulse cfg
            (applyGamma (if |value| < deadzoneThreshold cfg then 0 else value) cfg.gamma))
          now st).2) := by
  rw [pulseFromValue]
  simp only [if_true]
  rw [applyDither, if_neg]
  rintro ⟨h, -⟩
  rw [hd] at h
  exact Bool.noConfusion h

theorem pulseFromValue_bounds (cfg : ChannelConfig) (value now : ℝ) (flag : Bool)
    (st : RampState) (h : cfg.pulse_min ≤ cfg.pulse_max) :
    cfg.pulse_min ≤ (pulseFromValue cfg value now flag st).1 ∧
      (pulseFromValue cfg value now flag st).1 ≤ cfg.pulse_max := by
  simp only [pulseFromValue]
  exact ⟨le_max_left _ _, max_le h (min_le_left _ _)⟩

theorem updateChannels_writes (now : ℝ) :
    ∀ (l : List (String × ChannelConfig)) (acc : Controller × List Write)
      (w : Write), w ∈ (l.foldl (updateChannelStep now) acc).2 →
      w ∈ acc.2 ∨ ∃ p ∈ l, w.channel = p.2.output_channel ∧
        (∃ v st, w.pulse = (pulseFromValue p.2 v now true st).1 ∧ w.duty = dutyOf w.pulse) := by
  intro l
  induction l with
  | nil => intro acc w hw; exact Or.inl hw
  | cons hd tl ih =>
    intro acc w hw
    rw [List.foldl_cons] at hw
    rcases ih (updateChannelStep now acc hd) w hw with hin | ⟨p, hp, hrest⟩
    · simp only [updateChannelStep] at hin
      by_cases hskip : acc.1.toggleChannels = false ∧ hd.2.toggleable = true
      · rw [if_pos hskip] at hin
        exact Or.inl hin
      · rw [if_neg hskip] at hin
        simp only [List.mem_append, List.mem_singleton] at hin
        rcases hin with h | h
        · exact Or.inl h
        · subst h
          exact Or.inr ⟨hd, List.mem_cons_self _ _, rfl,
            ⟨acc.1.values hd.2.output_channel, acc.1.ramp, rfl, rfl⟩⟩
    · exact Or.inr ⟨p, List.mem_cons_of_mem _ hp, hrest⟩

theorem updatePump_writes (ctl : Controller) (w : Write) (hw : w ∈ (updatePump ctl).2) :
    ∃ pc, ctl.pumpConfig = some pc ∧ w.channel = pc.output_channel ∧
      (∃ t : ℝ, w.pulse = pc.pulse_min +
        (pc.pulse_max - pc.pulse_min) * ((max (-1) (min 1 t) + 1) / 2)) ∧
      w.duty = dutyOf w.pulse := by
  rw [updatePump] at hw
  cases hpc : ctl.pumpConfig with
  | none => rw [hpc] at hw; simp at hw
  | some pc =>
    rw [hpc] at hw
    simp only [List.mem_singleton] at hw
    subst hw
    exact ⟨pc, rfl, rfl, ⟨_, rfl⟩, rfl⟩

theorem pump_pulse_bounds (pc : PumpConfig) (t : ℝ) (h : pc.pulse_min ≤ pc.pulse_max) :
    pc.pulse_min ≤ pc.pulse_min + (pc.pulse_max - pc.pulse_min) * ((max (-1) (min 1 t) + 1) / 2) ∧
      pc.pulse_min + (pc.pulse_max - pc.pulse_min) * ((max (-1) (min 1 t) + 1) / 2) ≤
        pc.pulse_max := by
  have h1 : -1 ≤ max (-1) (min 1 t) := le_max_left _ _
  have h2 : max (-1) (min 1 t) ≤ 1 := max_le (by norm_num) (min_le_left _ _)
  constructor
  · nlinarith
  · nlinarith

theorem updateChannels_foldl_configs (now : ℝ) (l : List (String × ChannelConfig)) :
    ∀ acc : Controller × List Write,
      (l.foldl (updateChannelStep now) acc).1.channelConfigs = acc.1.channelConfigs ∧
      (l.foldl (updateChannelStep now) acc).1.pumpConfig = acc.1.pumpConfig := by
  induction l with
  | nil => intro acc; exact ⟨rfl, rfl⟩
  | cons hd tl ih =>
    intro acc
    rw [List.foldl_cons]
    have hstep : (updateChannelStep now acc hd).1.channelConfigs = acc.1.channelConfigs ∧
        (updateChannelStep now acc hd).1.pumpConfig = acc.1.pumpConfig := by
      simp only [updateChannelStep]
      split_ifs <;> exact ⟨rfl, rfl⟩
    exact ⟨((ih _).1).trans hstep.1, ((ih _).2).trans hstep.2⟩

theorem updateNamedRest_shape (ctl : Controller) (commands : List (String × CmdVal))
    (u : Option Bool) (o : Bool) (now : ℝ) (ctl2 : Controller) (ws : List Write)
    (h : updateNamedRest ctl commands u o now = .ok (ctl2, ws)) :
    ∃ ctlMid : Controller, ctlMid.channelConfigs = ctl.channelConfigs ∧
      ctlMid.pumpConfig = ctl.pumpConfig ∧
      ws = (updateChannels ctlMid now).2 ++ (updatePump (updateChannels ctlMid now).1).2 := by
  rw [updateNamedRest] at h
  cases hpc : processCommands ctl.channelConfigs
      (if u.getD ctl.defaultUnsetToZero = true then
        ctl.channelConfigs.foldl (fun vs nc => Function.update vs nc.2.output_channel 0) ctl.values
      else ctl.values) none commands with
  | error e =>
    rw [hpc] at h
    exact absurd h (by simp [Except.bind])
  | ok values1 =>
    rw [hpc] at h
    simp only [Except.bind, pure, Except.pure] at h
    cases h
    refine ⟨_, ?_, ?_, rfl⟩ <;> rfl

theorem updateNamed_ok_shape (ctl : Controller) (commands : List (String × CmdVal))
    (u : Option Bool) (o : Bool) (now : ℝ) (ctl2 : Controller) (ws : List Write)
    (h : updateNamed ctl commands u o now = .ok (ctl2, ws)) :
    ws = [] ∨ ∃ ctlMid : Controller, ctlMid.channelConfigs = ctl.channelConfigs ∧
      ctlMid.pumpConfig = ctl.pumpConfig ∧
      ws = (updateChannels ctlMid now).2 ++ (updatePump (updateChannels ctlMid now).1).2 := by
  rw [updateNamed] at h
  by_cases hgate : ctl.skipRateChecking = false ∧ ctl.isSafeState = false
  · rw [if_pos hgate] at h
    cases h
    exact Or.inl rfl
  · rw [if_neg hgate] at h
    split at h
    · obtain ⟨cm, h1, h2, h3⟩ := updateNamedRest_shape _ _ _ _ _ _ _
        (by simpa only [Except.bind, pure, Except.pure] using h)
      exact Or.inr ⟨cm, h1, h2, h3⟩
    · simp [Except.bind, throw, throwThe, MonadExceptOf.throw] at h
    · obtain ⟨cm, h1, h2, h3⟩ := updateNamedRest_shape _ _ _ _ _ _ _
        (by simpa only [Except.bind, pure, Except.pure] using h)
      exact Or.inr ⟨cm, h1, h2, h3⟩

theorem foldl_update_ne (c : ℕ) :
    ∀ (l : List Write) (o : ℕ → ℤ), (∀ w ∈ l, w.channel ≠ c) →
      (l.foldl (fun o w => Function.update o w.channel w.duty) o) c = o c := by
  intro l
  induction l with
  | nil => intro o _; rfl
  | cons hd tl ih =>
    intro o hne
    rw [List.foldl_cons, ih _ (fun w hw => hne w (List.mem_cons_of_mem _ hw))]
    exact Function.update_noteq (Ne.symm (hne hd (List.mem_cons_self _ _))) _ _

end PWM

namespace PWM

theorem dutyOf_1770 : dutyOf 1770 = 5799 := by
  rw [dutyOf, pyInt_nonneg _ (by rw [pwmPeriodUs, DUTY_CYCLE_MAX]; positivity)]
  rw [pwmPeriodUs, DUTY_CYCLE_MAX]
  rw [show (1770 : ℝ) / (1000000 / 50) * 65535 = 115996950 / 20000 by norm_num]
  rw [Int.floor_eq_iff]
  norm_num

theorem dutyOf_1500 : dutyOf 1500 = 4915 := by
  rw [dutyOf, pyInt_nonneg _ (by rw [pwmPeriodUs, DUTY_CYCLE_MAX]; positivity)]
  rw [pwmPeriodUs, DUTY_CYCLE_MAX]
  rw [show (1500 : ℝ) / (1000000 / 50) * 65535 = 98302500 / 20000 by norm_num]
  rw [Int.floor_eq_iff]
  norm_num

theorem cfgDeadband_valid : ValidChannelConfig cfgDeadband := by
  norm_num [ValidChannelConfig, cfgDeadband]

theorem cfgDitherZero_valid : ValidChannelConfig cfgDitherZero := by
  norm_num [ValidChannelConfig, cfgDitherZero, cfgDeadband]

theorem cfgRampDither_valid : ValidChannelConfig cfgRampDither := by
  norm_num [ValidChannelConfig, cfgRampDither, cfgDeadband]

end PWM

/-- C5: for the spec's deadband channel (`pulse_min=1000, center=1500,
pulse_max=2000, deadband_us_pos=deadband_us_neg=40, direction=+1,
deadzone=0`, ramp and dither disabled), `compute_pulse` at value `0.5`
yields `1540 + 0.5·(2000−1540) = 1770` µs with `gamma=1.0` and
`1540 + 0.25·460 = 1655` µs with `gamma=2.0`. -/
theorem C5_deadband_gamma_scenarios :
    PWM.computePulse [("boom", PWM.cfgDeadband)] "boom" (1/2) 0 = some 1770 ∧
    PWM.computePulse [("boom", PWM.cfgGamma2)] "boom" (1/2) 0 = some 1655 := by
  constructor
  · norm_num [PWM.computePulse, PWM.pulseFromValue, PWM.applyGamma, PWM.computeBasePulse,
      PWM.applyDither, PWM.deadzoneThreshold, List.lookup, PWM.cfgDeadband, abs_of_nonneg]
  · norm_num [PWM.computePulse, PWM.pulseFromValue, PWM.applyGamma, PWM.computeBasePulse,
      PWM.applyDither, PWM.deadzoneThreshold, List.lookup, PWM.cfgGamma2, PWM.cfgDeadband,
      abs_of_nonneg]

/-- C3 (amended): `compute_pulse(c, 0)` equals `center(c)` for every
configured channel whose dither is disabled or whose deadzone threshold is
positive.  (With dither enabled and a zero deadzone threshold the dither
branch fires even at value 0 — see the counterexample.) -/
theorem C3_compute_pulse_zero_center (cfgs : List (String × PWM.ChannelConfig))
    (name : String) (cfg : PWM.ChannelConfig) (now : ℝ)
    (hfind : cfgs.lookup name = some cfg) (hv : PWM.ValidChannelConfig cfg)
    (hnd : cfg.dither_enable = false ∨ 0 < PWM.deadzoneThreshold cfg) :
    PWM.computePulse cfgs name 0 now = some cfg.center := by
  obtain ⟨-, -, -, -, -, -, -, h8, h9, -⟩ := hv
  have h0 : max (-1 : ℝ) (min 1 0) = 0 := by norm_num
  simp only [PWM.computePulse, hfind, h0]
  rw [PWM.pulseFromValue_zero cfg now ⟨[], 0⟩ h8 h9 hnd]

/-- Witness for C3: the scenario-1 channel (dither off) at value 0 and an
arbitrary time 7 previews exactly its center, 1500 µs. -/
theorem C3_compute_pulse_zero_center_witness :
    PWM.computePulse [("boom", PWM.cfgDeadband)] "boom" 0 7 = some PWM.cfgDeadband.center :=
  C3_compute_pulse_zero_center [("boom", PWM.cfgDeadband)] "boom" PWM.cfgDeadband 7
    (by simp [List.lookup]) PWM.cfgDeadband_valid (Or.inl rfl)

/-- Counterexample to C3 as stated: for the *configured* (validation-passing)
channel `cfgDitherZero` (dither enabled, `deadzone = 0`), `compute_pulse`
at value 0 and time `1/160` s returns `center + dither_amp·sin(π/2) = 1508`,
not the center 1500: `_apply_dither` fires because
`abs(0) >= deadzone_threshold` holds when the threshold is 0. -/
theorem C3_zero_value_dither_not_center :
    PWM.computePulse [("boom", PWM.cfgDitherZero)] "boom" 0 (1/160) = some 1508 ∧
    PWM.cfgDitherZero.center = 1500 ∧ PWM.ValidChannelConfig PWM.cfgDitherZero ∧
    (1508 : ℝ) ≠ 1500 := by
  refine ⟨?_, rfl, PWM.cfgDitherZero_valid, by norm_num⟩
  have hs : Real.sin (2 * Real.pi * 40 * (1/160)) = 1 := by
    have harg : (2 : ℝ) * Real.pi * 40 * (1/160) = Real.pi / 2 := by ring
    rw [harg, Real.sin_pi_div_two]
  norm_num [PWM.computePulse, PWM.pulseFromValue, PWM.applyGamma, PWM.computeBasePulse,
    PWM.applyDither, PWM.deadzoneThreshold, List.lookup, PWM.cfgDitherZero, PWM.cfgDeadband,
    abs_of_nonneg, hs]

/-- C4 (amended): when ramp is enabled (`ramp_enable` true, `ramp_limit > 0`)
and the channel's dither is disabled (dither is added *after* the ramp
stage), two consecutive pulses emitted by `_pulse_from_value` for the same
channel satisfy `|pulse₂ − pulse₁| ≤ ramp_limit · dt`, where `dt` is the
elapsed interval clamped to at most twice the previously observed update
interval (`_last_ramp_dt`), exactly as `_apply_ramp` computes it. -/
theorem C4_ramp_slew_rate_bound (cfg : PWM.ChannelConfig) (v1 v2 t1 t2 dt e1 e2 : ℝ)
    (st0 st1 st2 : PWM.RampState)
    (hen : cfg.ramp_enable = true) (hlim : 0 < cfg.ramp_limit)
    (hdith : cfg.dither_enable = false)
    (h1 : PWM.pulseFromValue cfg v1 t1 true st0 = (e1, st1))
    (h2 : PWM.pulseFromValue cfg v2 t2 true st1 = (e2, st2))
    (hdt : dt = if 0 < st1.lastDt then min (max 0 (t2 - t1)) (st1.lastDt * 2)
                else max 0 (t2 - t1)) :
    |e2 - e1| ≤ cfg.ramp_limit * dt ∧ dt ≤ max 0 (t2 - t1) ∧
      (0 < st1.lastDt → dt ≤ st1.lastDt * 2) := by
  rw [PWM.pulseFromValue_dither_off cfg v1 t1 st0 hdith] at h1
  rw [PWM.pulseFromValue_dither_off cfg v2 t2 st1 hdith] at h2
  set b1 := PWM.computeBasePulse cfg
    (PWM.applyGamma (if |v1| < PWM.deadzoneThreshold cfg then 0 else v1) cfg.gamma) with hb1
  set b2 := PWM.computeBasePulse cfg
    (PWM.applyGamma (if |v2| < PWM.deadzoneThreshold cfg then 0 else v2) cfg.gamma) with hb2
  have hst1 : st1 = (PWM.applyRamp cfg b1 t1 st0).2 := by
    have := congrArg Prod.snd h1
    simpa using this.symm
  have hlook : st1.channels.lookup cfg.output_channel =
      some ((PWM.applyRamp cfg b1 t1 st0).1, t1) := by
    rw [hst1]
    exact PWM.applyRamp_stores cfg b1 t1 st0
  have hbound := PWM.applyRamp_bound cfg b2 t2 ((PWM.applyRamp cfg b1 t1 st0).1) t1 st1
    hen hlim hlook
  have he1 : e1 = max cfg.pulse_min (min cfg.pulse_max (PWM.applyRamp cfg b1 t1 st0).1) := by
    have := congrArg Prod.fst h1
    simpa using this.symm
  have he2 : e2 = max cfg.pulse_min (min cfg.pulse_max (PWM.applyRamp cfg b2 t2 st1).1) := by
    have := congrArg Prod.fst h2
    simpa using this.symm
  refine ⟨?_, ?_, ?_⟩
  · calc |e2 - e1| ≤ |(PWM.applyRamp cfg b2 t2 st1).1 - (PWM.applyRamp cfg b1 t1 st0).1| := by
          rw [he1, he2]; exact PWM.clamp_lipschitz _ _ _ _
      _ ≤ cfg.ramp_limit *
            (if 0 < st1.lastDt then min (max 0 (t2 - t1)) (st1.lastDt * 2)
             else max 0 (t2 - t1)) := hbound
      _ = cfg.ramp_limit * dt := by rw [hdt]
  · rw [hdt]
    split_ifs
    · exact min_le_left _ _
    · exact le_refl _
  · intro hpos
    rw [hdt, if_pos hpos]
    exact min_le_right _ _

/-- Witness for C4: the ramp-only channel (`ramp_limit = 100` µs/s, dither
off) stepped twice from center with value 0.5 at times 1 s and 2 s emits
1600 µs then 1700 µs: the 100 µs step respects `ramp_limit · dt = 100`. -/
theorem C4_ramp_slew_rate_bound_witness :
    |(1700 : ℝ) - 1600| ≤ PWM.cfgRampOnly.ramp_limit * 1 ∧ (1 : ℝ) ≤ max 0 (2 - 1) ∧
      (0 < (PWM.RampState.mk [(0, (1600, 1))] 1).lastDt →
        (1 : ℝ) ≤ (PWM.RampState.mk [(0, (1600, 1))] 1).lastDt * 2) :=
  C4_ramp_slew_rate_bound PWM.cfgRampOnly (1/2) (1/2) 1 2 1 1600 1700
    ⟨[(0, (1500, 0))], 0⟩ ⟨[(0, (1600, 1))], 1⟩ ⟨[(0, (1700, 2))], 1⟩
    rfl (by norm_num [PWM.cfgRampOnly, PWM.cfgDeadband]) rfl
    (by norm_num [PWM.pulseFromValue, PWM.applyGamma, PWM.computeBasePulse, PWM.applyDither,
      PWM.applyRamp, PWM.rampSet, PWM.deadzoneThreshold, List.lookup, PWM.cfgRampOnly,
      PWM.cfgDeadband, abs_of_nonneg])
    (by norm_num [PWM.pulseFromValue, PWM.applyGamma, PWM.computeBasePulse, PWM.applyDither,
      PWM.applyRamp, PWM.rampSet, PWM.deadzoneThreshold, List.lookup, PWM.cfgRampOnly,
      PWM.cfgDeadband, abs_of_nonneg])
    (by norm_num)

/-- Counterexample to C4 as stated: for the configured channel
`cfgRampDither` (ramp enabled with `ramp_limit = 1` µs/s *and* dither
enabled), two consecutive emitted pulses at times `1/160` s and `3/160` s
(value 0) are 1508 µs and 1492 µs.  The elapsed `dt = 1/80` s is exactly
twice the previously observed interval (`_last_ramp_dt = 1/160`), yet
`|pulse₂ − pulse₁| = 16 > ramp_limit · dt = 1/80`: dither is applied after
the slew limiter, so the claimed bound fails for every dither-enabled
channel. -/
theorem C4_dither_violates_slew_bound :
    PWM.ValidChannelConfig PWM.cfgRampDither ∧
    PWM.cfgRampDither.ramp_enable = true ∧ 0 < PWM.cfgRampDither.ramp_limit ∧
    (PWM.pulseFromValue PWM.cfgRampDither 0 (1/160) true ⟨[(0, (1500, 0))], 0⟩).1 = 1508 ∧
    (PWM.pulseFromValue PWM.cfgRampDither 0 (1/160) true ⟨[(0, (1500, 0))], 0⟩).2 =
      PWM.RampState.mk [(0, (1500, 1/160))] (1/160) ∧
    (PWM.pulseFromValue PWM.cfgRampDither 0 (3/160) true
      (PWM.RampState.mk [(0, (1500, 1/160))] (1/160))).1 = 1492 ∧
    ((3 : ℝ)/160 - 1/160) ≤ (PWM.RampState.mk [(0, (1500, 1/160))] (1/160)).lastDt * 2 ∧
    ¬|(1492 : ℝ) - 1508| ≤ PWM.cfgRampDither.ramp_limit * ((3 : ℝ)/160 - 1/160) := by
  have hs1 : Real.sin (2 * Real.pi * 40 * (1/160)) = 1 := by
    have harg : (2 : ℝ) * Real.pi * 40 * (1/160) = Real.pi / 2 := by ring
    rw [harg, Real.sin_pi_div_two]
  have hs2 : Real.sin (2 * Real.pi * 40 * (3/160)) = -1 := by
    have harg : (2 : ℝ) * Real.pi * 40 * (3/160) = Real.pi / 2 + Real.pi := by ring
    rw [harg, Real.sin_add_pi, Real.sin_pi_div_two]
  refine ⟨PWM.cfgRampDither_valid, rfl, by norm_num [PWM.cfgRampDither, PWM.cfgDeadband],
    ?_, ?_, ?_, ?_, ?_⟩
  · norm_num [PWM.pulseFromValue, PWM.applyGamma, PWM.computeBasePulse, PWM.applyDither,
      PWM.applyRamp, PWM.rampSet, PWM.deadzoneThreshold, List.lookup, PWM.cfgRampDither,
      PWM.cfgDeadband, abs_of_nonneg, hs1]
  · norm_num [PWM.pulseFromValue, PWM.applyGamma, PWM.computeBasePulse, PWM.applyDither,
      PWM.applyRamp, PWM.rampSet, PWM.deadzoneThreshold, List.lookup, PWM.cfgRampDither,
      PWM.cfgDeadband, abs_of_nonneg, hs1]
  · norm_num [PWM.pulseFromValue, PWM.applyGamma, PWM.computeBasePulse, PWM.applyDither,
      PWM.applyRamp, PWM.rampSet, PWM.deadzoneThreshold, List.lookup, PWM.cfgRampDither,
      PWM.cfgDeadband, abs_of_nonneg, hs2]
  · norm_num
  · rw [show |(1492 : ℝ) - 1508| = 16 by norm_num]
    norm_num [PWM.cfgRampDither, PWM.cfgDeadband]

namespace PWM

/-- Evaluation of `update_named` on `ctlStep` with command `boom ↦ 0.5` at
time 1: the single write pushed is pulse 1770 µs, duty cycle
`int(1770/20000·65535) = 5799`. -/
theorem updateNamed_ctlStep_eval :
    (updateNamed ctlStep [("boom", CmdVal.num (1/2))] (some false) true 1).map
      (fun r => r.2) = Except.ok [Write.mk 0 1770 5799] := by
  have h1 : List.lookup "pump" [("boom", CmdVal.num (1/2))] = none := by simp [List.lookup]
  have h2 : List.lookup "boom" [("boom", cfgDeadband)] = some cfgDeadband := by
    simp [List.lookup]
  norm_num [updateNamed, updateNamedRest, processCommands, updateChannels, updateChannelStep,
    updatePump, pulseFromValue, applyGamma, computeBasePulse, applyDither, applyRamp, rampSet,
    deadzoneThreshold, ctlStep, cfgDeadband, h1, h2, Except.bind, Except.map,
    pure, Except.pure, abs_of_nonneg, dutyOf_1770]

end PWM

/-- C1 (amended): after `update_named`, every duty-cycle write pushed to the
peripheral carries a pulse clamped into the `[pulse_min, pulse_max]` range
of its channel (or pump) config, and the duty cycle equals
`⌊pulse / pwm_period_us · 65535⌋` — `int()` *truncates* the scaled value;
it does not round it. -/
theorem C1_update_named_pulse_clamped_duty_floor (ctl : PWM.Controller)
    (commands : List (String × PWM.CmdVal)) (u : Option Bool) (o : Bool) (now : ℝ)
    (ctl2 : PWM.Controller) (ws : List PWM.Write)
    (hvalid : ∀ p ∈ ctl.channelConfigs, PWM.ValidChannelConfig p.2)
    (hpump : ∀ pc, ctl.pumpConfig = some pc → 0 ≤ pc.pulse_min ∧ pc.pulse_min ≤ pc.pulse_max)
    (hrun : PWM.updateNamed ctl commands u o now = .ok (ctl2, ws)) :
    ∀ w ∈ ws, ∃ lo hi, 0 ≤ lo ∧ lo ≤ w.pulse ∧ w.pulse ≤ hi ∧
      w.duty = ⌊w.pulse / PWM.pwmPeriodUs * PWM.DUTY_CYCLE_MAX⌋ ∧
      ((∃ p ∈ ctl.channelConfigs, w.channel = p.2.output_channel ∧
          lo = p.2.pulse_min ∧ hi = p.2.pulse_max) ∨
        (∃ pc, ctl.pumpConfig = some pc ∧ w.channel = pc.output_channel ∧
          lo = pc.pulse_min ∧ hi = pc.pulse_max)) := by
  intro w hw
  rcases PWM.updateNamed_ok_shape ctl commands u o now ctl2 ws hrun with
    hnil | ⟨ctlMid, hcc, hpc, hws⟩
  · subst hnil
    cases hw
  · subst hws
    have hduty : ∀ pulse : ℝ, 0 ≤ pulse →
        PWM.dutyOf pulse = ⌊pulse / PWM.pwmPeriodUs * PWM.DUTY_CYCLE_MAX⌋ := by
      intro pulse hp
      rw [PWM.dutyOf, PWM.pyInt_nonneg]
      rw [PWM.pwmPeriodUs, PWM.DUTY_CYCLE_MAX]
      positivity
    rcases List.mem_append.mp hw with hw | hw
    · rw [PWM.updateChannels, hcc] at hw
      rcases PWM.updateChannels_writes now ctl.channelConfigs (ctlMid, []) w hw with
        hmem | ⟨p, hp, hch, ⟨v, st, hpulse, hdu⟩⟩
      · cases hmem
      · obtain ⟨-, -, h0min, -, -, -, hlt, -⟩ := hvalid p hp
        have hb := PWM.pulseFromValue_bounds p.2 v now true st (le_of_lt hlt)
        rw [← hpulse] at hb
        refine ⟨p.2.pulse_min, p.2.pulse_max, h0min, hb.1, hb.2, ?_,
          Or.inl ⟨p, hp, hch, rfl, rfl⟩⟩
        rw [hdu]
        exact hduty _ (le_trans h0min hb.1)
    · rcases PWM.updatePump_writes _ w hw with ⟨pc, hpceq, hch, ⟨t, hpulse⟩, hdu⟩
      have hpc2 : ctl.pumpConfig = some pc := by
        rw [← hpc,
          ← (PWM.updateChannels_foldl_configs now ctlMid.channelConfigs (ctlMid, [])).2]
        exact hpceq
      obtain ⟨h0, hle⟩ := hpump pc hpc2
      have hb := PWM.pump_pulse_bounds pc t hle
      rw [← hpulse] at hb
      refine ⟨pc.pulse_min, pc.pulse_max, h0, hb.1, hb.2, ?_,
        Or.inr ⟨pc, hpc2, hch, rfl, rfl⟩⟩
      rw [hdu]
      exact hduty _ (le_trans h0 hb.1)

/-- Witness for C1: the concrete run of `update_named` on `ctlStep` with
`boom ↦ 0.5` succeeds, and its write satisfies the clamp/floor property. -/
theorem C1_update_named_pulse_clamped_duty_floor_witness :
    ∃ ctl2 ws, PWM.updateNamed PWM.ctlStep [("boom", PWM.CmdVal.num (1/2))]
        (some false) true 1 = .ok (ctl2, ws) ∧
      ∀ w ∈ ws, ∃ lo hi, 0 ≤ lo ∧ lo ≤ w.pulse ∧ w.pulse ≤ hi ∧
        w.duty = ⌊w.pulse / PWM.pwmPeriodUs * PWM.DUTY_CYCLE_MAX⌋ ∧
        ((∃ p ∈ PWM.ctlStep.channelConfigs, w.channel = p.2.output_channel ∧
            lo = p.2.pulse_min ∧ hi = p.2.pulse_max) ∨
          (∃ pc, PWM.ctlStep.pumpConfig = some pc ∧ w.channel = pc.output_channel ∧
            lo = pc.pulse_min ∧ hi = pc.pulse_max)) := by
  rcases hres : PWM.updateNamed PWM.ctlStep [("boom", PWM.CmdVal.num (1/2))]
      (some false) true 1 with e | r
  · have hc := PWM.updateNamed_ctlStep_eval
    rw [hres] at hc
    exact absurd hc (by simp [Except.map])
  · rcases r with ⟨c2, ws⟩
    refine ⟨c2, ws, rfl, ?_⟩
    exact C1_update_named_pulse_clamped_duty_floor PWM.ctlStep _ _ _ _ c2 ws
      (by intro p hp
          simp only [PWM.ctlStep, List.mem_singleton] at hp
          rw [hp]
          exact PWM.cfgDeadband_valid)
      (by intro pc hpc
          exact absurd hpc (by simp [PWM.ctlStep]))
      hres

/-- Counterexample to C1 as stated: on `ctlStep` with command `boom ↦ 0.5`
the pushed duty cycle is `int(1770/20000·65535) = 5799`, while
`round(1770/20000·65535) = round(5799.8475) = 5800`: `_update_channels`
truncates the scaled value with `int(...)`, it does not round it. -/
theorem C1_duty_truncated_not_rounded :
    (PWM.updateNamed PWM.ctlStep [("boom", PWM.CmdVal.num (1/2))] (some false) true 1).map
        (fun r => r.2) = Except.ok [PWM.Write.mk 0 1770 5799] ∧
    round ((1770 : ℝ) / PWM.pwmPeriodUs * PWM.DUTY_CYCLE_MAX) = 5800 ∧
    (5799 : ℤ) ≠ 5800 := by
  refine ⟨PWM.updateNamed_ctlStep_eval, ?_, by norm_num⟩
  rw [PWM.pwmPeriodUs, PWM.DUTY_CYCLE_MAX, round_eq]
  rw [show (1770 : ℝ) / (1000000 / 50) * 65535 + 1/2 = 116006950 / 20000 by norm_num]
  rw [Int.floor_eq_iff]
  norm_num

/-- C2 (amended): with rate monitoring on, (i) when the monitor's
`input_event.wait(1/input_rate_threshold)` times out while driving is
enabled, `_monitor_loop` calls `reset(reset_pump=False)`: every valve
channel is written to its center duty, the pump output is *not* written
(it keeps its previous duty), and the driver is disabled
(`is_safe_state = False`); (ii) while disabled, `update_named` ignores
commands and writes nothing; (iii) on each input event the driver is
re-enabled only once `int(input_rate_threshold · 0.25)` consecutive
commands have been observed at a rate at or above the threshold; a slower
command resets the count. -/
theorem C2_rate_monitor_soft_safe_state (ctl : PWM.Controller) (now : ℝ)
    (cmds : List (String × PWM.CmdVal)) (u : Option Bool) (o : Bool) (pc : PWM.PumpConfig)
    (hpc : ctl.pumpConfig = some pc)
    (huniq : ∀ p ∈ ctl.channelConfigs, p.2.output_channel ≠ pc.output_channel) :
    (ctl.isSafeState = true →
      (PWM.monitorStep ctl (.timeout now)).1.isSafeState = false ∧
      (PWM.monitorStep ctl (.timeout now)).2 = ctl.channelConfigs.map
        (fun nc => PWM.Write.mk nc.2.output_channel nc.2.center (PWM.dutyOf nc.2.center)) ∧
      (PWM.monitorStep ctl (.timeout now)).1.outputs pc.output_channel =
        ctl.outputs pc.output_channel) ∧
    (ctl.skipRateChecking = false → ctl.isSafeState = false →
      PWM.updateNamed ctl cmds u o now = .ok (ctl, [])) ∧
    (0 < now - ctl.lastInputTime →
      (ctl.inputRateThreshold ≤ 1 / (now - ctl.lastInputTime) →
        (PWM.pyInt (ctl.inputRateThreshold * PWM.SAFE_STATE_THRESHOLD) ≤
            ((ctl.inputCount + 1 : ℕ) : ℤ) →
          (PWM.monitorStep ctl (.inputEv now)).1.isSafeState = true) ∧
        (¬PWM.pyInt (ctl.inputRateThreshold * PWM.SAFE_STATE_THRESHOLD) ≤
            ((ctl.inputCount + 1 : ℕ) : ℤ) →
          (PWM.monitorStep ctl (.inputEv now)).1.inputCount = ctl.inputCount + 1 ∧
          (PWM.monitorStep ctl (.inputEv now)).1.isSafeState = ctl.isSafeState)) ∧
      (1 / (now - ctl.lastInputTime) < ctl.inputRateThreshold →
        (PWM.monitorStep ctl (.inputEv now)).1.inputCount = 0 ∧
        (PWM.monitorStep ctl (.inputEv now)).1.isSafeState = ctl.isSafeState)) := by
  refine ⟨?_, ?_, ?_⟩
  · intro hsafe
    have hms : PWM.monitorStep ctl (.timeout now) =
        ({ (PWM.reset ctl false now).1 with isSafeState := false, inputCount := 0 },
          (PWM.reset ctl false now).2) := by
      rw [PWM.monitorStep, if_pos hsafe]
    have hwrites : (PWM.reset ctl false now).2 = ctl.channelConfigs.map
        (fun nc => PWM.Write.mk nc.2.output_channel nc.2.center (PWM.dutyOf nc.2.center)) := by
      rw [PWM.reset]
      simp
    refine ⟨by rw [hms], by rw [hms]; exact hwrites, ?_⟩
    rw [hms]
    show (PWM.reset ctl false now).1.outputs pc.output_channel = ctl.outputs pc.output_channel
    rw [PWM.reset]
    simp only [if_neg Bool.false_ne_true, List.foldl_nil]
    refine PWM.foldl_update_ne _ _ _ ?_
    intro w hw
    rcases List.mem_map.mp hw with ⟨p, hp, rfl⟩
    exact huniq p hp
  · intro hskip hsafe
    rw [PWM.updateNamed, if_pos ⟨hskip, hsafe⟩]
    rfl
  · intro hdt
    refine ⟨?_, ?_⟩
    · intro hrate
      constructor
      · intro hcount
        rw [PWM.monitorStep]
        simp only [if_pos hdt, if_pos hrate, if_pos hcount]
      · intro hcount
        rw [PWM.monitorStep]
        simp only [if_pos hdt, if_pos hrate, if_neg hcount]
        exact ⟨trivial, trivial⟩
    · intro hrate
      rw [PWM.monitorStep]
      have hrate2 : ¬ctl.inputRateThreshold ≤ 1 / (now - ctl.lastInputTime) := not_le.mpr hrate
      simp only [if_pos hdt, if_neg hrate2]
      exact ⟨trivial, trivial⟩

/-- Witness for C2: on the concrete monitored controller `ctlMonitor`
(threshold 20 Hz, enabled), a monitor timeout at t = 5 s disables driving
and leaves the pump output at its previous duty. -/
theorem C2_rate_monitor_soft_safe_state_witness :
    (PWM.monitorStep PWM.ctlMonitor (.timeout 5)).1.isSafeState = false ∧
    (PWM.monitorStep PWM.ctlMonitor (.timeout 5)).1.outputs
        PWM.pumpExample.output_channel =
      PWM.ctlMonitor.outputs PWM.pumpExample.output_channel ∧
    PWM.updateNamed { PWM.ctlMonitor with isSafeState := false }
      [("boom", PWM.CmdVal.num 1)] none true 6 =
      .ok ({ PWM.ctlMonitor with isSafeState := false }, []) := by
  have h := C2_rate_monitor_soft_safe_state PWM.ctlMonitor 5 [("boom", PWM.CmdVal.num 1)]
    none true PWM.pumpExample rfl
    (by intro p hp
        simp only [PWM.ctlMonitor, PWM.ctlStep, List.mem_singleton] at hp
        rw [hp]
        norm_num [PWM.cfgDeadband, PWM.pumpExample])
  have h2 := C2_rate_monitor_soft_safe_state { PWM.ctlMonitor with isSafeState := false } 6
    [("boom", PWM.CmdVal.num 1)] none true PWM.pumpExample rfl
    (by intro p hp
        simp only [PWM.ctlMonitor, PWM.ctlStep, List.mem_singleton] at hp
        rw [hp]
        norm_num [PWM.cfgDeadband, PWM.pumpExample])
  exact ⟨(h.1 rfl).1, (h.1 rfl).2.2, h2.2.1 rfl rfl⟩

/-- Counterexample to C2 as stated: in the soft safe state entered by the
monitor's timeout branch, the pump is *not* driven to idle.  On
`ctlMonitor` (pump last driven to duty 9999) the timeout step emits no
write for the pump's output channel 1 and leaves its duty at 9999, whereas
the idle throttle of `pumpExample` corresponds to pulse 1500 µs, i.e. duty
4915 ≠ 9999. -/
theorem C2_soft_safe_pump_not_idled :
    (PWM.monitorStep PWM.ctlMonitor (.timeout 5)).1.outputs 1 = 9999 ∧
    (∀ w ∈ (PWM.monitorStep PWM.ctlMonitor (.timeout 5)).2, w.channel ≠ 1) ∧
    PWM.dutyOf (PWM.pumpExample.pulse_min +
      (PWM.pumpExample.pulse_max - PWM.pumpExample.pulse_min) *
        ((PWM.pumpExample.idle + 1) / 2)) = 4915 ∧
    (9999 : ℤ) ≠ 4915 := by
  refine ⟨?_, ?_, ?_, by norm_num⟩
  · norm_num [PWM.monitorStep, PWM.reset, PWM.initRampState, PWM.rampSet, PWM.ctlMonitor,
      PWM.ctlStep, PWM.cfgDeadband, Function.update, PWM.dutyOf_1500]
  · norm_num [PWM.monitorStep, PWM.reset, PWM.initRampState, PWM.rampSet, PWM.ctlMonitor,
      PWM.ctlStep, PWM.cfgDeadband, Function.update, PWM.dutyOf_1500]
  · have heq : PWM.pumpExample.pulse_min +
        (PWM.pumpExample.pulse_max - PWM.pumpExample.pulse_min) *
          ((PWM.pumpExample.idle + 1) / 2) = 1500 := by
      norm_num [PWM.pumpExample]
    rw [heq, PWM.dutyOf_1500]

/-- C10: `update_named` is not exception-free for non-numeric command
values.  On `ctlPump` (pump config loaded, rate checking off): (i) a
`pump` command whose value `float()` cannot convert raises `NameError`,
because the `except` branch logs `f"Received invalid pump value {value}"`
and the local `value` is unbound there; (ii) a non-convertible value for a
known channel on the *first* loop iteration raises the same `NameError`
from `f"Config {name} value: {value} is invalid"`; (iii) when a successful
conversion precedes it, `value` is bound (stale) and no exception escapes. -/
theorem C10_update_named_unbound_value_name_error :
    PWM.updateNamed PWM.ctlPump [("pump", PWM.CmdVal.nonNumeric)] none true 0 =
      Except.error PWM.PyErr.nameError ∧
    PWM.updateNamed PWM.ctlPump [("arm", PWM.CmdVal.nonNumeric)] none true 0 =
      Except.error PWM.PyErr.nameError ∧
    (∀ e, PWM.updateNamed PWM.ctlPump
        [("boom", PWM.CmdVal.num 1), ("arm", PWM.CmdVal.nonNumeric)] none true 0 ≠
      Except.error e) := by
  refine ⟨?_, ?_, ?_⟩
  · simp [PWM.updateNamed, PWM.ctlPump, PWM.ctlStep, List.lookup, Except.bind,
      throw, throwThe, MonadExceptOf.throw]
  · simp [PWM.updateNamed, PWM.updateNamedRest, PWM.processCommands, PWM.ctlPump, PWM.ctlStep,
      List.lookup, Except.bind, pure, Except.pure, throw, throwThe, MonadExceptOf.throw]
  · intro e h
    have h1 : List.lookup "pump" [("boom", PWM.CmdVal.num 1), ("arm", PWM.CmdVal.nonNumeric)] =
        none := by simp [List.lookup]
    have h2 : List.lookup "boom" [("boom", PWM.cfgDeadband), ("arm", PWM.cfgArm)] =
        some PWM.cfgDeadband := by simp [List.lookup]
    rw [PWM.updateNamed, if_neg (by simp [PWM.ctlPump, PWM.ctlStep])] at h
    rw [show PWM.ctlPump.pumpConfig = some PWM.pumpExample from rfl, h1] at h
    simp only [Except.bind, PWM.updateNamedRest, pure, Except.pure, Option.getD_none] at h
    rcases hr : PWM.processCommands PWM.ctlPump.channelConfigs
        (if PWM.ctlPump.defaultUnsetToZero = true then
          PWM.ctlPump.channelConfigs.foldl
            (fun vs nc => Function.update vs nc.2.output_channel 0) PWM.ctlPump.values
        else PWM.ctlPump.values) none
        [("boom", PWM.CmdVal.num 1), ("arm", PWM.CmdVal.nonNumeric)] with e2 | v1
    · simp only [PWM.processCommands,
        show PWM.ctlPump.channelConfigs = [("boom", PWM.cfgDeadband), ("arm", PWM.cfgArm)]
          from rfl, h2] at hr
      split at hr <;> exact absurd hr (by simp [pure, Except.pure])
    · rw [hr] at h
      simp [pure, Except.pure] at h

namespace UDP

theorem crcStep_lt {s : ℕ} (h : s < 2^16) : crcStep s < 2^16 := by
  rw [crcStep]
  split_ifs
  · exact Nat.xor_lt_two_pow (by omega) (by norm_num)
  · omega

theorem xor_patt_ge {x : ℕ} (hx : x < 2^15) : 2^15 ≤ x ^^^ 0x8408 := by
  have h0x : Nat.testBit 0x8408 15 = true := by decide
  have hbit : (x ^^^ 0x8408).testBit 15 = true := by
    rw [Nat.testBit_xor, Nat.testBit_lt_two_pow hx, h0x]
    rfl
  exact Nat.testBit_implies_ge hbit

theorem crcStep_inj {s s' : ℕ} (hs : s < 2^16) (hs' : s' < 2^16)
    (h : crcStep s = crcStep s') : s = s' := by
  rw [crcStep, crcStep] at h
  by_cases h1 : s % 2 = 1 <;> by_cases h2 : s' % 2 = 1
  · rw [if_pos h1, if_pos h2] at h
    have := congrArg (· ^^^ 0x8408) h
    simp only [Nat.xor_cancel_right] at this
    omega
  · rw [if_pos h1, if_neg h2] at h
    have hge := xor_patt_ge (show s / 2 < 2^15 by omega)
    rw [h] at hge
    omega
  · rw [if_neg h1, if_pos h2] at h
    have hge := xor_patt_ge (show s' / 2 < 2^15 by omega)
    rw [← h] at hge
    omega
  · rw [if_neg h1, if_neg h2] at h
    omega

theorem crcStep_iter_lt (n : ℕ) : ∀ s, s < 2^16 → crcStep^[n] s < 2^16 := by
  induction n with
  | zero => intro s h; exact h
  | succ n ih =>
    intro s h
    rw [Function.iterate_succ_apply]
    exact ih _ (crcStep_lt h)

theorem crcStep_iter_inj (n : ℕ) : ∀ s s', s < 2^16 → s' < 2^16 →
    crcStep^[n] s = crcStep^[n] s' → s = s' := by
  induction n with
  | zero => intro s s' _ _ h; exact h
  | succ n ih =>
    intro s s' hs hs' h
    rw [Function.iterate_succ_apply, Function.iterate_succ_apply] at h
    exact crcStep_inj hs hs' (ih _ _ (crcStep_lt hs) (crcStep_lt hs') h)

theorem crcByte_lt {s b : ℕ} (hs : s < 2^16) (hb : b < 256) : crcByte s b < 2^16 :=
  crcStep_iter_lt 8 _ (Nat.xor_lt_two_pow hs (by omega))

theorem crcByte_inj_state {s s' b : ℕ} (hs : s < 2^16) (hs' : s' < 2^16) (hb : b < 256)
    (h : crcByte s b = crcByte s' b) : s = s' := by
  have h1 := crcStep_iter_inj 8 _ _ (Nat.xor_lt_two_pow hs (by omega))
    (Nat.xor_lt_two_pow hs' (by omega)) h
  have h2 := congrArg (· ^^^ b) h1
  simpa only [Nat.xor_cancel_right] using h2

theorem crcByte_ne_byte {s b b' : ℕ} (hs : s < 2^16) (hb : b < 256) (hb' : b' < 256)
    (hne : b ≠ b') : crcByte s b ≠ crcByte s b' := by
  intro h
  have h1 := crcStep_iter_inj 8 _ _ (Nat.xor_lt_two_pow hs (by omega))
    (Nat.xor_lt_two_pow hs (by omega)) h
  have h2 := congrArg (s ^^^ ·) h1
  simp only [Nat.xor_cancel_left] at h2
  exact hne h2


theorem crc_foldl_ne : ∀ (l : List ℕ), (∀ b ∈ l, b < 256) →
    ∀ s s', s < 2^16 → s' < 2^16 → s ≠ s' →
      l.foldl crcByte s ≠ l.foldl crcByte s' := by
  intro l
  induction l with
  | nil => intro _ s s' _ _ hne; exact hne
  | cons hd tl ih =>
    intro hl s s' hs hs' hne
    rw [List.foldl_cons, List.foldl_cons]
    have hhd : hd < 256 := hl hd (List.mem_cons_self _ _)
    exact ih (fun b hb => hl b (List.mem_cons_of_mem _ hb))
      _ _ (crcByte_lt hs hhd) (crcByte_lt hs' hhd)
      (fun heq => hne (crcByte_inj_state hs hs' hhd heq))

theorem crc_foldl_set_ne (b' : ℕ) (hb' : b' < 256) :
    ∀ (l : List ℕ) (i : ℕ) (hi : i < l.length) (s : ℕ), (∀ b ∈ l, b < 256) → s < 2^16 →
      b' ≠ l.get ⟨i, hi⟩ →
      (l.set i b').foldl crcByte s ≠ l.foldl crcByte s := by
  intro l
  induction l with
  | nil => intro i hi; simp at hi
  | cons hd tl ih =>
    intro i hi s hl hs hne
    have hhd : hd < 256 := hl hd (List.mem_cons_self _ _)
    have htl : ∀ b ∈ tl, b < 256 := fun b hb => hl b (List.mem_cons_of_mem _ hb)
    cases i with
    | zero =>
      simp only [List.set_cons_zero, List.foldl_cons]
      have hne0 : b' ≠ hd := by simpa using hne
      exact crc_foldl_ne tl htl _ _ (crcByte_lt hs hb') (crcByte_lt hs hhd)
        (fun heq => crcByte_ne_byte hs hb' hhd hne0 heq)
    | succ j =>
      simp only [List.set_cons_succ, List.foldl_cons]
      have hj : j < tl.length := by simpa using hi
      exact ih j hj (crcByte s hd) htl (crcByte_lt hs hhd) (by simpa using hne)

/-- Any single-byte change in a byte string changes its CRC-16. -/
theorem crc16_set_ne (l : List ℕ) (hl : ∀ b ∈ l, b < 256) (i : ℕ) (hi : i < l.length)
    (b' : ℕ) (hb' : b' < 256) (hne : b' ≠ l.get ⟨i, hi⟩) :
    crc16 (l.set i b') ≠ crc16 l :=
  crc_foldl_set_ne b' hb' l i hi 0xFFFF hl (by norm_num) hne

theorem crc16_lt (l : List ℕ) (hl : ∀ b ∈ l, b < 256) : crc16 l < 2^16 := by
  rw [crc16]
  have hgen : ∀ (l : List ℕ), (∀ b ∈ l, b < 256) → ∀ s, s < 2^16 →
      l.foldl crcByte s < 2^16 := by
    intro l
    induction l with
    | nil => intro _ s hs; exact hs
    | cons hd tl ih =>
      intro hl s hs
      rw [List.foldl_cons]
      exact ih (fun b hb => hl b (List.mem_cons_of_mem _ hb)) _
        (crcByte_lt hs (hl hd (List.mem_cons_self _ _)))
  exact hgen l hl 0xFFFF (by norm_num)

set_option maxRecDepth 4000 in
/-- Cross-check against crcmod: MCRF4XX check value of `b"123456789"`. -/
theorem crc16_check_value :
    crc16 [0x31, 0x32, 0x33, 0x34, 0x35, 0x36, 0x37, 0x38, 0x39] = 0x6F91 := by decide


theorem packElem_length (t : ElementType) (v : ℤ) : (packElem t v).length = elemSize t := by
  cases t <;> simp [packElem, toBytesLE, elemSize]

theorem packElem_bytes (t : ElementType) (v : ℤ) : ∀ b ∈ packElem t v, b < 256 := by
  cases t <;>
    · intro b hb
      simp only [packElem, toBytesLE, elemSize, List.mem_cons, List.not_mem_nil, or_false] at hb
      rcases hb with h | h <;> omega

theorem unpackElem_packElem (t : ElementType) (v : ℤ) (h : inRangeE t v) :
    unpackElem t (packElem t v) = v := by
  cases t <;>
    · norm_num [inRangeE, elemSigned, elemSize] at h
      norm_num [unpackElem, packElem, toBytesLE, fromBytesLE, elemSigned, elemSize]
      try split_ifs
      all_goals omega


theorem packValues_length (t : ElementType) (vals : List ℤ) :
    (packValues t vals).length = elemSize t * vals.length := by
  induction vals with
  | nil => simp [packValues]
  | cons v vs ih =>
    simp only [packValues, List.map_cons, List.flatten_cons, List.length_append,
      List.length_cons]
    rw [packElem_length]
    rw [packValues] at ih
    rw [ih]
    ring

theorem packValues_bytes (t : ElementType) (vals : List ℤ) :
    ∀ b ∈ packValues t vals, b < 256 := by
  induction vals with
  | nil => simp [packValues]
  | cons v vs ih =>
    intro b hb
    simp only [packValues, List.map_cons, List.flatten_cons, List.mem_append] at hb
    rcases hb with h | h
    · exact packElem_bytes t v b h
    · exact ih b h

theorem unpackValues_packValues (t : ElementType) :
    ∀ (vals : List ℤ), (∀ v ∈ vals, inRangeE t v) →
      unpackValues t vals.length (packValues t vals) = some vals := by
  intro vals
  induction vals with
  | nil => intro _; simp [packValues, unpackValues]
  | cons v vs ih =>
    intro hr
    have hcons : packValues t (v :: vs) = packElem t v ++ packValues t vs := by
      simp [packValues]
    rw [List.length_cons, hcons, unpackValues]
    have hlen : (packElem t v ++ packValues t vs).length = elemSize t + (packValues t vs).length := by
      rw [List.length_append, packElem_length]
    have hnlt : ¬(packElem t v ++ packValues t vs).length < elemSize t := by
      rw [hlen]; omega
    rw [if_neg hnlt]
    have hdrop : (packElem t v ++ packValues t vs).drop (elemSize t) = packValues t vs := by
      rw [← packElem_length t v]
      exact List.drop_left _ _
    have htake : (packElem t v ++ packValues t vs).take (elemSize t) = packElem t v := by
      rw [← packElem_length t v]
      exact List.take_left _ _
    rw [hdrop, ih (fun x hx => hr x (List.mem_cons_of_mem _ hx)), htake,
      unpackElem_packElem t v (hr v (List.mem_cons_self _ _))]

theorem fromBytesLE_encodeU16LE (c : ℕ) (h : c < 2^16) :
    fromBytesLE (encodeU16LE c) = c := by
  simp only [encodeU16LE, fromBytesLE]
  omega


/-- C6: for every vector of the negotiated shape (integer element types),
the frame built by `send` — payload packed with the local element type plus
the CRC-16 of the payload as two little-endian bytes — is accepted by the
receive loop and stores exactly the original vector; and flipping any
single bit of the payload makes `_validate_crc` fail: `packets_corrupted`
increases by 1, `latest_data` is unchanged, and no new sample is stored. -/
theorem C6_frame_roundtrip_and_bitflip_reject (st : SockState) (vals : List ℤ) (now : ℚ)
    (hlen : vals.length = st.num_inputs)
    (hrange : ∀ v ∈ vals, inRangeE st.receive_type v) :
    processDatagram st (sendFrame st.receive_type vals) now =
      .next { st with
        latest_data := some vals
        latest_timestamp := now
        packets_received := st.packets_received + 1
        last_packet_time := now } ∧
    (∀ (i : ℕ) (hi : i < (packValues st.receive_type vals).length) (j : ℕ), j < 8 →
      processDatagram st
        ((packValues st.receive_type vals).set i
          ((packValues st.receive_type vals).get ⟨i, hi⟩ ^^^ 2^j) ++
          encodeU16LE (crc16 (packValues st.receive_type vals))) now =
        .next { st with packets_corrupted := st.packets_corrupted + 1 }) := by
  have hbytes := packValues_bytes st.receive_type vals
  have hplen : (packValues st.receive_type vals).length =
      elemSize st.receive_type * st.num_inputs := by
    rw [packValues_length, hlen]
  have hclt : crc16 (packValues st.receive_type vals) < 2^16 :=
    crc16_lt _ hbytes
  constructor
  · rw [sendFrame, processDatagram]
    have hne : packValues st.receive_type vals ++
        encodeU16LE (crc16 (packValues st.receive_type vals)) ≠ [] := by
      simp [encodeU16LE]
    rw [if_neg hne]
    have hlen2 : (packValues st.receive_type vals ++
        encodeU16LE (crc16 (packValues st.receive_type vals))).length = expectedSize st := by
      rw [List.length_append, hplen]
      simp [encodeU16LE, expectedSize]
    rw [if_pos hlen2]
    have hsub : (packValues st.receive_type vals ++
        encodeU16LE (crc16 (packValues st.receive_type vals))).length - 2 =
        (packValues st.receive_type vals).length := by
      rw [List.length_append]
      simp [encodeU16LE]
    rw [hsub]
    have htake : (packValues st.receive_type vals ++
        encodeU16LE (crc16 (packValues st.receive_type vals))).take
          (packValues st.receive_type vals).length = packValues st.receive_type vals :=
      List.take_left _ _
    have hdrop : (packValues st.receive_type vals ++
        encodeU16LE (crc16 (packValues st.receive_type vals))).drop
          (packValues st.receive_type vals).length =
        encodeU16LE (crc16 (packValues st.receive_type vals)) :=
      List.drop_left _ _
    rw [htake, hdrop, fromBytesLE_encodeU16LE _ hclt]
    rw [if_neg (by simp)]
    have hup : unpackValues st.receive_type st.num_inputs (packValues st.receive_type vals) =
        some vals := by
      rw [← hlen]
      exact unpackValues_packValues _ _ hrange
    rw [hup]
  · intro i hi j hj
    have hflip : (packValues st.receive_type vals).get ⟨i, hi⟩ ^^^ 2^j < 256 := by
      refine Nat.xor_lt_two_pow (n := 8) ?_ ?_
      · exact hbytes _ (List.get_mem _ _ _)
      · exact Nat.pow_lt_pow_right (by norm_num) hj
    have hfne : (packValues st.receive_type vals).get ⟨i, hi⟩ ^^^ 2^j ≠
        (packValues st.receive_type vals).get ⟨i, hi⟩ := by
      intro h
      have h2 := congrArg ((packValues st.receive_type vals).get ⟨i, hi⟩ ^^^ ·) h.symm
      simp only [Nat.xor_cancel_left, Nat.xor_self] at h2
      exact absurd h2.symm (by positivity)
    set payload2 := (packValues st.receive_type vals).set i
      ((packValues st.receive_type vals).get ⟨i, hi⟩ ^^^ 2^j) with hp2
    have hp2len : payload2.length = (packValues st.receive_type vals).length := by
      rw [hp2, List.length_set]
    rw [processDatagram]
    have hne : payload2 ++ encodeU16LE (crc16 (packValues st.receive_type vals)) ≠ [] := by
      simp [encodeU16LE]
    rw [if_neg hne]
    have hlen2 : (payload2 ++
        encodeU16LE (crc16 (packValues st.receive_type vals))).length = expectedSize st := by
      rw [List.length_append, hp2len, hplen]
      simp [encodeU16LE, expectedSize]
    rw [if_pos hlen2]
    have hsub : (payload2 ++
        encodeU16LE (crc16 (packValues st.receive_type vals))).length - 2 =
        payload2.length := by
      rw [List.length_append]
      simp [encodeU16LE]
    rw [hsub]
    rw [List.take_left, List.drop_left, fromBytesLE_encodeU16LE _ hclt]
    have hcrcne : crc16 payload2 ≠ crc16 (packValues st.receive_type vals) := by
      rw [hp2]
      exact crc16_set_ne _ hbytes i hi _ hflip hfne
    rw [if_pos hcrcne]


/-- C7: `get_latest` returns the stored vector only when
`now − latest_timestamp ≤ max_age_seconds`; on stale data it increments
`packets_expired` and returns no value (leaving the stale slot in place);
and a successfully returned sample clears the slot, so an immediately
following `get_latest` returns no value. -/
theorem C7_get_latest_freshness_and_single_read (st : SockState) (now now2 : ℚ) :
    (∀ v, (get_latest st now).2 = .value v →
      st.latest_data = some v ∧ now - st.latest_timestamp ≤ st.max_age_seconds ∧
      (get_latest st now).1.latest_data = none) ∧
    (st.running = true → ∀ d, st.latest_data = some d →
      st.max_age_seconds < now - st.latest_timestamp →
      get_latest st now =
        ({ st with packets_expired := st.packets_expired + 1 }, .noValue)) ∧
    (∀ v, (get_latest st now).2 = .value v →
      (get_latest (get_latest st now).1 now2).2 = .noValue) := by
  by_cases hrun : st.running = false
  · simp only [get_latest, if_pos hrun]
    refine ⟨?_, ?_, ?_⟩
    · intro v hv
      cases hv
    · intro h
      rw [h] at hrun
      cases hrun
    · intro v hv
      cases hv
  · cases hld : st.latest_data with
    | none =>
      simp only [get_latest, if_neg hrun, hld]
      refine ⟨?_, ?_, ?_⟩
      · intro v hv
        cases hv
      · intro _ d hd
        cases hd
      · intro v hv
        cases hv
    | some d =>
      by_cases hage : st.max_age_seconds < now - st.latest_timestamp
      · simp only [get_latest, if_neg hrun, hld, if_pos hage]
        refine ⟨?_, ?_, ?_⟩
        · intro v hv
          cases hv
        · intro _ d2 hd2 _
          cases hd2
          trivial
        · intro v hv
          cases hv
      · simp only [get_latest, if_neg hrun, hld, if_neg hage]
        refine ⟨?_, ?_, ?_⟩
        · intro v hv
          cases hv
          exact ⟨rfl, le_of_not_lt hage, trivial⟩
        · intro _ d2 hd2 hage2
          cases hd2
          exact absurd hage2 hage
        · intro v hv
          simp only [get_latest, if_neg hrun]

end UDP

namespace UDP

/-- Witness for C6: the two-value `i16` vector `[1, -2]` round-trips
through the frame at t = 10, and flipping bit 0 of payload byte 0 is
rejected as corrupted. -/
theorem C6_frame_roundtrip_and_bitflip_reject_witness :
    processDatagram sockExample (sendFrame ElementType.h [1, -2]) 10 =
      .next { sockExample with
        latest_data := some [1, -2]
        latest_timestamp := 10
        packets_received := sockExample.packets_received + 1
        last_packet_time := 10 } ∧
    processDatagram sockExample
      ((packValues ElementType.h [1, -2]).set 0
        ((packValues ElementType.h [1, -2]).get ⟨0, by decide⟩ ^^^ 2^0) ++
        encodeU16LE (crc16 (packValues ElementType.h [1, -2]))) 10 =
      .next { sockExample with packets_corrupted := sockExample.packets_corrupted + 1 } := by
  have h := C6_frame_roundtrip_and_bitflip_reject sockExample [1, -2] 10 rfl
    (by decide)
  exact ⟨h.1, h.2 0 (by decide) 0 (by decide)⟩

/-- Witness for C7: with `max_age = 1` s and a sample that arrived at
t = 3 s, reading at t = 5 s expires it (`packets_expired` + 1, no value);
reading at t = 3.5 s returns it, and an immediate second read at t = 4 s
returns no value. -/
theorem C7_get_latest_freshness_and_single_read_witness :
    get_latest sockExample 5 =
      ({ sockExample with packets_expired := sockExample.packets_expired + 1 }, .noValue) ∧
    (get_latest (get_latest sockExample (7/2)).1 4).2 = .noValue := by
  have h1 := C7_get_latest_freshness_and_single_read sockExample 5 4
  have h2 := C7_get_latest_freshness_and_single_read sockExample (7/2) 4
  exact ⟨h1.2.1 rfl [5] rfl (by norm_num [sockExample]),
    h2.2.2 [5] (by norm_num [get_latest, sockExample])⟩

end UDP

namespace Coord

theorem inv_at_most_one (s : CoordState) (hInv : Inv s) : activeCount s ≤ 1 := by
  obtain ⟨hd, hm, hdm⟩ := hInv
  rw [activeCount]
  by_cases h1 : s.driving = true
  · by_cases h2 : s.mirroring = true
    · exact absurd ((hm h2).symm.trans (hd h1)) (by norm_num)
    · by_cases h3 : s.dm = true
      · exact absurd ((hdm h3).symm.trans (hd h1)) (by norm_num)
      · rw [if_pos h1, if_neg h2, if_neg h3]
  · by_cases h2 : s.mirroring = true
    · by_cases h3 : s.dm = true
      · exact absurd ((hdm h3).symm.trans (hm h2)) (by norm_num)
      · rw [if_neg h1, if_pos h2, if_neg h3]
    · by_cases h3 : s.dm = true
      · rw [if_neg h1, if_neg h2, if_pos h3]
      · rw [if_neg h1, if_neg h2, if_neg h3]
        norm_num

end Coord

namespace Coord

theorem inv_preserved (a : Action) (s : CoordState) (ha : a ≠ Action.resetLocked)
    (hInv : Inv s) : Inv (applyAction a s).1 := by
  obtain ⟨hd, hm, hdm⟩ := hInv
  have hflags : s.current_operation = 0 →
      s.driving = false ∧ s.mirroring = false ∧ s.dm = false := by
    intro h0
    refine ⟨?_, ?_, ?_⟩
    · cases hD : s.driving
      · rfl
      · rw [hd hD] at h0; cases h0
    · cases hM : s.mirroring
      · rfl
      · rw [hm hM] at h0; cases h0
    · cases hDM : s.dm
      · rfl
      · rw [hdm hDM] at h0; cases h0
  cases a
  case startDrivingEntry =>
    rw [applyAction, startDrivingEntry]
    by_cases h0 : s.current_operation ≠ 0
    · rw [if_pos h0]; exact ⟨hd, hm, hdm⟩
    · rw [if_neg h0]
      obtain ⟨hD, hM, hDM⟩ := hflags (by omega)
      by_cases h1 : s.driving = true
      · rw [if_pos h1]; exact ⟨hd, hm, hdm⟩
      · rw [if_neg h1]
        by_cases h2 : s.driving_starting = true ∨ s.driving_stopping = true
        · rw [if_pos h2]; exact ⟨hd, hm, hdm⟩
        · rw [if_neg h2]
          refine ⟨fun _ => rfl, fun hMx => ?_, fun hDMx => ?_⟩
          · rw [hM] at hMx; cases hMx
          · rw [hDM] at hDMx; cases hDMx
  case startMirroringEntry =>
    rw [applyAction, startMirroringEntry]
    by_cases h0 : s.current_operation ≠ 0
    · rw [if_pos h0]; exact ⟨hd, hm, hdm⟩
    · rw [if_neg h0]
      obtain ⟨hD, hM, hDM⟩ := hflags (by omega)
      by_cases h1 : s.mirroring = true
      · rw [if_pos h1]; exact ⟨hd, hm, hdm⟩
      · rw [if_neg h1]
        by_cases h2 : s.mirroring_starting = true ∨ s.mirroring_stopping = true
        · rw [if_pos h2]; exact ⟨hd, hm, hdm⟩
        · rw [if_neg h2]
          refine ⟨fun hDx => ?_, fun _ => rfl, fun hDMx => ?_⟩
          · rw [hD] at hDx; cases hDx
          · rw [hDM] at hDMx; cases hDMx
  case startDMEntry =>
    rw [applyAction, startDMEntry]
    by_cases h0 : s.current_operation ≠ 0
    · rw [if_pos h0]; exact ⟨hd, hm, hdm⟩
    · rw [if_neg h0]
      obtain ⟨hD, hM, hDM⟩ := hflags (by omega)
      by_cases h1 : s.dm = true
      · rw [if_pos h1]; exact ⟨hd, hm, hdm⟩
      · rw [if_neg h1]
        by_cases h2 : s.dm_stopping = true ∨ s.dm_starting = true
        · rw [if_pos h2]; exact ⟨hd, hm, hdm⟩
        · rw [if_neg h2]
          refine ⟨fun hDx => ?_, fun hMx => ?_, fun _ => rfl⟩
          · rw [hD] at hDx; cases hDx
          · rw [hM] at hMx; cases hMx
  case startDrivingFinishOk =>
    exact ⟨hd, hm, hdm⟩
  case startMirroringFinishOk =>
    exact ⟨hd, hm, hdm⟩
  case startDMFinishOk =>
    exact ⟨hd, hm, hdm⟩
  case startDrivingFinishFail =>
    exact ⟨fun hx => Bool.noConfusion hx, hm, hdm⟩
  case startMirroringFinishFail =>
    exact ⟨hd, fun hx => Bool.noConfusion hx, hdm⟩
  case startDMFinishFail =>
    exact ⟨hd, hm, fun hx => Bool.noConfusion hx⟩
  case stopDrivingEntry =>
    rw [applyAction, stopDrivingEntry]
    split_ifs <;> exact ⟨hd, hm, hdm⟩
  case stopMirroringEntry =>
    rw [applyAction, stopMirroringEntry]
    split_ifs <;> exact ⟨hd, hm, hdm⟩
  case stopDMEntry =>
    rw [applyAction, stopDMEntry]
    split_ifs <;> exact ⟨hd, hm, hdm⟩
  case resetLocked =>
    exact absurd rfl ha
  case resetFlags op =>
    show Inv (resetFlags op s)
    rw [resetFlags]
    split_ifs
    · exact ⟨hd, fun hx => Bool.noConfusion hx, hdm⟩
    · exact ⟨fun hx => Bool.noConfusion hx, hm, hdm⟩
    · exact ⟨hd, hm, fun hx => Bool.noConfusion hx⟩
    · exact ⟨hd, hm, hdm⟩

theorem inv_initState : Inv initState :=
  ⟨fun h => Bool.noConfusion h, fun h => Bool.noConfusion h, fun h => Bool.noConfusion h⟩

/-- C8 (amended): every lock-held section of the start/stop transitions —
but NOT the in-lock half of `_reset_operation_values`, whose operation-flag
clears run after `data_lock` is released — preserves the invariant that
each set operation flag pins `current_operation` to that operation's code
(hence at most one operation is active in any state satisfying it);
whenever `current_operation` is not None every start entry rejects with an
`error` event carrying the calling function's name as context, and a
second `start_driving` issued after a first one (before its finish)
returns `error` with context `"start_driving"`.  The unqualified claim
"at most one operation is in a non-None state at any time" is refuted by
the out-of-lock reset window: see `Coord.C8_reset_window_two_active`. -/
theorem C8_single_active_operation :
    (∀ (a : Action) (s : CoordState), a ≠ Action.resetLocked → Inv s →
      Inv (applyAction a s).1 ∧ activeCount (applyAction a s).1 ≤ 1) ∧
    (∀ s : CoordState, s.current_operation ≠ 0 →
      startDrivingEntry s = (s, Event.errorEv "start_driving") ∧
      startMirroringEntry s = (s, Event.errorEv "start_mirroring") ∧
      startDMEntry s = (s, Event.errorEv "start_driving_and_mirroring")) ∧
    startDrivingEntry ((startDrivingEntry initState).1) =
      ((startDrivingEntry initState).1, Event.errorEv "start_driving") := by
  refine ⟨?_, ?_, ?_⟩
  · intro a s ha h
    exact ⟨inv_preserved a s ha h, inv_at_most_one _ (inv_preserved a s ha h)⟩
  · intro s h0
    rw [startDrivingEntry, startMirroringEntry, startDMEntry]
    rw [if_pos h0, if_pos h0, if_pos h0]
    exact ⟨rfl, rfl, rfl⟩
  · decide

theorem C8_single_active_operation_witness :
    (Inv ((applyAction Action.startDrivingEntry initState).1) ∧
      activeCount ((applyAction Action.startDrivingEntry initState).1) ≤ 1) ∧
    startDrivingEntry ((applyAction Action.startDrivingEntry initState).1) =
      ((applyAction Action.startDrivingEntry initState).1,
        Event.errorEv "start_driving") :=
  ⟨C8_single_active_operation.1 Action.startDrivingEntry initState
      (fun h => Action.noConfusion h) inv_initState,
   (C8_single_active_operation.2.1 ((applyAction Action.startDrivingEntry initState).1)
      (by decide)).1⟩

/-- A legal interleaving with two operations active at once: after
`start_mirroring` completes and `stop_mirroring` reaches the `finally`,
the lock-held half of `_reset_operation_values` zeroes `current_operation`
(capturing code 1) but releases the lock before clearing the `mirroring`
flag; a concurrent `start_driving` entering in that window passes
`_check_operation` and sets `driving`, so both flags are set
(`activeCount = 2`) until the out-of-lock tail `resetFlags 1` runs. -/
theorem C8_reset_window_two_active :
    (resetLocked (runActions [Action.startMirroringEntry,
      Action.startMirroringFinishOk, Action.stopMirroringEntry] initState)).2 = 1 ∧
    (runActions [Action.startMirroringEntry, Action.startMirroringFinishOk,
      Action.stopMirroringEntry, Action.resetLocked,
      Action.startDrivingEntry] initState).mirroring = true ∧
    (runActions [Action.startMirroringEntry, Action.startMirroringFinishOk,
      Action.stopMirroringEntry, Action.resetLocked,
      Action.startDrivingEntry] initState).driving = true ∧
    activeCount (runActions [Action.startMirroringEntry,
      Action.startMirroringFinishOk, Action.stopMirroringEntry,
      Action.resetLocked, Action.startDrivingEntry] initState) = 2 ∧
    activeCount (runActions [Action.startMirroringEntry,
      Action.startMirroringFinishOk, Action.stopMirroringEntry,
      Action.resetLocked, Action.startDrivingEntry,
      Action.resetFlags 1] initState) = 1 := by
  decide

end Coord

namespace TCP

/-- C9 (amended): a rate passes `__validate_rate` iff it lies STRICTLY
between `MIN_RATE` and the per-use-site cap: the check is
`not (MIN_RATE < rate < max_rate)`, so the caps themselves (150 Hz for the
mirroring send rate, 25 Hz for the driving command rate) and `MIN_RATE`
are rejected, contrary to the inclusive bounds stated in the spec. -/
theorem C9_rate_validation_strict_bounds (r : ℚ) :
    (validateMirroringSendRate r = true ↔
      MIN_RATE < r ∧ r < ORIENTATION_SEND_MAX_RATE) ∧
    (validateDrivingCommandRate r = true ↔
      MIN_RATE < r ∧ r < COMMAND_RECEIVE_MAX_RATE) ∧
    (validateRate r none = true ↔ MIN_RATE < r ∧ r < MAX_RATE) := by
  refine ⟨?_, ?_, ?_⟩ <;>
    simp [validateMirroringSendRate, validateDrivingCommandRate, validateRate]

theorem C9_rate_validation_strict_bounds_witness :
    validateMirroringSendRate 100 = true ∧ validateDrivingCommandRate 20 = true :=
  ⟨(C9_rate_validation_strict_bounds 100).1.mpr
     (by norm_num [MIN_RATE, ORIENTATION_SEND_MAX_RATE]),
   (C9_rate_validation_strict_bounds 20).2.1.mpr
     (by norm_num [MIN_RATE, COMMAND_RECEIVE_MAX_RATE])⟩

/-- The boundary rates the spec says are accepted are in fact rejected:
a mirroring send rate of exactly 150 Hz, a driving command rate of exactly
25 Hz, and a rate of exactly `MIN_RATE` all fail `__validate_rate`. -/
theorem C9_boundary_rates_rejected :
    validateMirroringSendRate 150 = false ∧
    validateDrivingCommandRate 25 = false ∧
    validateRate MIN_RATE none = false := by
  refine ⟨?_, ?_, ?_⟩ <;>
    norm_num [validateMirroringSendRate, validateDrivingCommandRate, validateRate,
      MIN_RATE, MAX_RATE, ORIENTATION_SEND_MAX_RATE, COMMAND_RECEIVE_MAX_RATE]

end TCP
